import Mathlib

/-!
Verification of the PRSTOCKS FastAPI backend (src/python-backend).

The development shallowly embeds the Python handlers as pure Lean
functions over explicit state values:

* Python `str` is modelled as `List Char` (`Str`), `None`-able columns as
  `Option _`, timestamps as abstract `Nat` clock values supplied to each
  handler as a `now` argument, and `float` costs as exact rationals.
* The JSON text stored in the `devices` and `preferences` columns is
  modelled by an executable serializer (`dumpValue`, after Python's
  `json.dumps` with its default separators) and an executable
  fuel-indexed reader (`parseValue`, after `json.loads`), together with
  a proved round-trip theorem.
* A handler raising an HTTP error (or an uncaught Python exception,
  which FastAPI surfaces as a 500) is modelled as `Except Err _`
  together with the unchanged state, since nothing is committed on the
  exception path.
-/

namespace PRStocks

/-- Python strings are modelled as lists of characters. -/
abbrev Str := List Char

/-- JSON values as produced by `json.loads` / consumed by `json.dumps`.
Numbers are restricted to integers (the backend never stores fractional
JSON numbers in the `devices` and `preferences` columns addressed here). -/
inductive Json where
  | null : Json
  | bool (b : Bool) : Json
  | num (n : Int) : Json
  | str (s : Str) : Json
  | arr (elems : List Json) : Json
  | obj (fields : List (Str × Json)) : Json

/-- The whitespace characters recognised by Python's `str.strip()` and by
`json.loads` (space, tab, newline, carriage return). -/
def isWs (c : Char) : Bool :=
  c = ' ' ∨ c = '\t' ∨ c = '\n' ∨ c = '\r'

/-- Python `s.strip()`: remove leading and trailing whitespace. -/
def pyStrip (s : Str) : Str :=
  ((s.dropWhile isWs).reverse.dropWhile isWs).reverse

/-- Python `s.lower()` (ASCII case folding, which is all the backend's
inputs exercise). -/
def pyLower (s : Str) : Str := s.map Char.toLower

/-- Python truthiness of an optional string: `None` and `""` are falsy. -/
def strTruthy : Option Str → Bool
  | none => false
  | some s => !s.isEmpty

/-- Python `needle in hay` on strings: substring containment. -/
def isSubstr (needle : Str) : Str → Bool
  | [] => needle.isEmpty
  | c :: rest => needle.isPrefixOf (c :: rest) || isSubstr needle rest

/-- `merge_field` from `routers/inventory.py` (`create_inventory_item`):
keep `existing_value` when the incoming value is empty/blank, replace a
blank existing value by the stripped incoming value, and otherwise keep
the stripped existing value, appending `", "` and the stripped incoming
value unless the incoming value is already contained (case-insensitively)
in the existing value. -/
def merge_field (existing_value new_value : Option Str) : Option Str :=
  match new_value with
  | none => existing_value
  | some nv0 =>
    if nv0 = [] ∨ pyStrip nv0 = [] then existing_value
    else
      let nv := pyStrip nv0
      match existing_value with
      | none => some nv
      | some ev0 =>
        if ev0 = [] ∨ pyStrip ev0 = [] then some nv
        else
          let ev := pyStrip ev0
          if ¬ isSubstr (pyLower nv) (pyLower ev) then
            some (ev ++ ',' :: ' ' :: nv)
          else
            some ev

/-! ### JSON serialization (`json.dumps`)

`json.dumps` with its default separators `", "` and `": "`.  Escapes are
emitted for the quote and backslash characters; other characters are
emitted verbatim (Python additionally escapes control and non-ASCII
characters, which changes only the spelling of the serialized text, not
the round-trip property). -/

/-- The left-brace character (code point 123). -/
def lbrace : Char := Char.ofNat 123

/-- The right-brace character (code point 125). -/
def rbrace : Char := Char.ofNat 125

/-- Escape the body of a JSON string literal. -/
def escapeString : Str → Str
  | [] => []
  | c :: cs =>
    (if c = '"' then ['\\', '"']
     else if c = '\\' then ['\\', '\\']
     else [c]) ++ escapeString cs

/-- Serialize a JSON string literal, quotes included. -/
def dumpString (s : Str) : Str := '"' :: (escapeString s ++ ['"'])

/-- Little-endian base-10 digits of `n` (fuel-indexed so that it reduces
definitionally; the fuel is always instantiated with `n` itself). -/
def natDigitsRev : Nat → Nat → List Nat
  | 0, _ => []
  | _ + 1, 0 => []
  | fuel + 1, n => (n % 10) :: natDigitsRev fuel (n / 10)

/-- Decimal digit string of a natural number, most significant first. -/
def dumpNat (n : Nat) : Str :=
  if n = 0 then ['0'] else ((natDigitsRev n n).map Nat.digitChar).reverse

/-- Decimal representation of an integer. -/
def dumpInt (n : Int) : Str :=
  if n < 0 then '-' :: dumpNat n.natAbs else dumpNat n.natAbs

mutual

/-- `json.dumps` of a JSON value. -/
def dumpValue : Json → Str
  | .null => "null".toList
  | .bool true => "true".toList
  | .bool false => "false".toList
  | .num n => dumpInt n
  | .str s => dumpString s
  | .arr xs => '[' :: (dumpElems xs ++ [']'])
  | .obj kvs => lbrace :: (dumpFields kvs ++ [rbrace])

/-- Serialized array elements, separated by `", "`. -/
def dumpElems : List Json → Str
  | [] => []
  | x :: xs => dumpValue x ++ dumpElemsTail xs

/-- Serialized `", "`-prefixed trailing array elements. -/
def dumpElemsTail : List Json → Str
  | [] => []
  | x :: xs => ',' :: ' ' :: (dumpValue x ++ dumpElemsTail xs)

/-- Serialized object members, separated by `", "`, each `"key": value`. -/
def dumpFields : List (Str × Json) → Str
  | [] => []
  | (k, v) :: t => dumpString k ++ ':' :: ' ' :: (dumpValue v ++ dumpFieldsTail t)

/-- Serialized `", "`-prefixed trailing object members. -/
def dumpFieldsTail : List (Str × Json) → Str
  | [] => []
  | (k, v) :: t => ',' :: ' ' :: (dumpString k ++ ':' :: ' ' :: (dumpValue v ++ dumpFieldsTail t))

end

/-! ### JSON reading (`json.loads`)

A fuel-indexed recursive-descent reader for the grammar emitted by
`dumpValue` (whitespace-tolerant where the serializer emits whitespace).
`loads` instantiates the fuel with the input length plus one, which the
round-trip development proves sufficient. -/

/-- Skip leading whitespace. -/
def skipWs : Str → Str
  | [] => []
  | c :: rest => if isWs c then skipWs rest else c :: rest

/-- Is `c` a decimal digit? -/
def isDigitChar (c : Char) : Bool := 48 ≤ c.toNat && c.toNat ≤ 57

/-- Numeric value of a decimal digit character. -/
def charToDigit (c : Char) : Nat := c.toNat - 48

/-- Value of a most-significant-first decimal digit string. -/
def parseNatDigits (ds : Str) : Nat := Nat.ofDigits 10 ((ds.map charToDigit).reverse)

/-- Longest prefix of decimal digits, plus the remainder. -/
def takeDigits : Str → Str × Str
  | [] => ([], [])
  | c :: cs =>
    if isDigitChar c then
      let p := takeDigits cs
      (c :: p.1, p.2)
    else ([], c :: cs)

/-- Does the string not start with a decimal digit?  (Numbers are the one
production whose serialized form is not self-delimiting.) -/
def noDigitStart : Str → Bool
  | [] => true
  | c :: _ => !isDigitChar c

/-- Read a JSON string body (after the opening quote) up to the closing
quote, decoding quote and backslash escapes. -/
def parseStringBody : Str → Option (Str × Str)
  | [] => none
  | c :: rest =>
    if c = '"' then some ([], rest)
    else if c = '\\' then
      match rest with
      | [] => none
      | e :: rest2 =>
        if e = '"' ∨ e = '\\' then
          match parseStringBody rest2 with
          | some p => some (e :: p.1, p.2)
          | none => none
        else none
    else
      match parseStringBody rest with
      | some p => some (c :: p.1, p.2)
      | none => none

mutual

/-- Read one JSON value. -/
def parseValue : Nat → Str → Option (Json × Str)
  | 0, _ => none
  | fuel + 1, s =>
    match skipWs s with
    | [] => none
    | c :: cs =>
      if c = '"' then
        match parseStringBody cs with
        | some p => some (.str p.1, p.2)
        | none => none
      else if c = '[' then parseArrBody fuel cs
      else if c = lbrace then parseObjBody fuel cs
      else if c = '-' then
        match takeDigits cs with
        | ([], _) => none
        | (ds, r) => some (.num (-(parseNatDigits ds : Int)), r)
      else if isDigitChar c then
        let p := takeDigits (c :: cs)
        some (.num (parseNatDigits p.1 : Int), p.2)
      else if c = 'n' then
        match cs with
        | 'u' :: 'l' :: 'l' :: r => some (.null, r)
        | _ => none
      else if c = 't' then
        match cs with
        | 'r' :: 'u' :: 'e' :: r => some (.bool true, r)
        | _ => none
      else if c = 'f' then
        match cs with
        | 'a' :: 'l' :: 's' :: 'e' :: r => some (.bool false, r)
        | _ => none
      else none

/-- Read an array after its opening bracket. -/
def parseArrBody : Nat → Str → Option (Json × Str)
  | 0, _ => none
  | fuel + 1, s =>
    match skipWs s with
    | [] => none
    | c :: cs =>
      if c = ']' then some (.arr [], cs)
      else
        match parseValue fuel (c :: cs) with
        | none => none
        | some (x, r) =>
          match parseArrTail fuel r with
          | none => none
          | some (xs, r2) => some (.arr (x :: xs), r2)

/-- Read the `","`-separated continuation of an array. -/
def parseArrTail : Nat → Str → Option (List Json × Str)
  | 0, _ => none
  | fuel + 1, s =>
    match skipWs s with
    | [] => none
    | c :: cs =>
      if c = ']' then some ([], cs)
      else if c = ',' then
        match parseValue fuel cs with
        | none => none
        | some (x, r) =>
          match parseArrTail fuel r with
          | none => none
          | some (xs, r2) => some (x :: xs, r2)
      else none

/-- Read an object after its opening brace. -/
def parseObjBody : Nat → Str → Option (Json × Str)
  | 0, _ => none
  | fuel + 1, s =>
    match skipWs s with
    | [] => none
    | c :: cs =>
      if c = rbrace then some (.obj [], cs)
      else
        match parsePair fuel (c :: cs) with
        | none => none
        | some (kv, r) =>
          match parseObjTail fuel r with
          | none => none
          | some (kvs, r2) => some (.obj (kv :: kvs), r2)

/-- Read one `"key": value` object member. -/
def parsePair : Nat → Str → Option ((Str × Json) × Str)
  | 0, _ => none
  | fuel + 1, s =>
    match skipWs s with
    | [] => none
    | c :: cs =>
      if c = '"' then
        match parseStringBody cs with
        | none => none
        | some (k, r) =>
          match skipWs r with
          | ':' :: r2 =>
            match parseValue fuel r2 with
            | none => none
            | some (v, r3) => some ((k, v), r3)
          | _ => none
      else none

/-- Read the `","`-separated continuation of an object. -/
def parseObjTail : Nat → Str → Option (List (Str × Json) × Str)
  | 0, _ => none
  | fuel + 1, s =>
    match skipWs s with
    | [] => none
    | c :: cs =>
      if c = rbrace then some ([], cs)
      else if c = ',' then
        match parsePair fuel cs with
        | none => none
        | some (kv, r) =>
          match parseObjTail fuel r with
          | none => none
          | some (kvs, r2) => some (kv :: kvs, r2)
      else none

end

/-- `json.loads`: read one JSON value and require that only whitespace
remains. -/
def loads (s : Str) : Option Json :=
  match parseValue (s.length + 1) s with
  | some (v, rest) => if skipWs rest = [] then some v else none
  | none => none

/-! ### Parser fuel measure

`muV v` bounds the fuel `parseValue` needs to read `dumpValue v`; the
list measures bound the corresponding auxiliary readers. -/

mutual

/-- Fuel needed to read one serialized value. -/
def muV : Json → Nat
  | .arr xs => 1 + muA xs
  | .obj kvs => 1 + muO kvs
  | _ => 1

/-- Fuel needed to read a serialized array body. -/
def muA : List Json → Nat
  | [] => 1
  | x :: t => muV x + muT t

/-- Fuel needed to read a serialized array continuation. -/
def muT : List Json → Nat
  | [] => 1
  | x :: t => 1 + muV x + muT t

/-- Fuel needed to read a serialized object body. -/
def muO : List (Str × Json) → Nat
  | [] => 1
  | (_, v) :: t => 1 + muV v + muOT t

/-- Fuel needed to read a serialized object continuation. -/
def muOT : List (Str × Json) → Nat
  | [] => 1
  | (_, v) :: t => 2 + muV v + muOT t

end

/-! ### HTTP errors

A handler's outcome is `Except Err resp` together with the resulting
store state.  A raised `HTTPException` (or an uncaught Python exception,
which FastAPI surfaces as a 500) skips `db.commit()`, so the state
component is the unchanged input state on the error path. -/

/-- The error outcomes the modelled handlers can produce. -/
inductive Err where
  | notFound : Err
  | conflict : Err
  | internal : Err
deriving DecidableEq

/-- HTTP status code of each error outcome. -/
def Err.statusCode : Err → Nat
  | .notFound => 404
  | .conflict => 409
  | .internal => 500

/-- Replace the first list entry satisfying `p` by `f` of it. -/
def updateFirst {α : Type} (p : α → Bool) (f : α → α) : List α → List α
  | [] => []
  | x :: rest => if p x then f x :: rest else x :: updateFirst p f rest

/-! ### Users (`models.User`, `routers/users.py`, `utils.py`) -/

/-- A row of the `users` table.  The `devices` column is JSON text. -/
structure UserRow where
  user_id : Nat
  username : Str
  category : Option Str
  subteam : Str
  devices : Str
  last_login : Option Nat
  created_at : Nat

/-- The users store: rows in insertion order plus the next synthetic id. -/
structure UsersState where
  users : List UserRow
  nextId : Nat

/-- `UserCreate` after pydantic validation (`category` defaults to
`"member"` when the field is omitted). -/
structure UserCreate where
  username : Str
  subteam : Str
  category : Option Str
  device : Option Str

/-- `DeviceLogin` payload. -/
structure DeviceLogin where
  username : Str
  device : Str

/-- `UserVerify` payload. -/
structure UserVerify where
  username : Str
  password : Str

/-- Python list membership `new_device in user_devices`: the string is
compared against each element with `==`; a comparison with a non-string
element is simply `False`. -/
def devMem (d : Str) : List Json → Bool
  | [] => false
  | .str s :: rest => d == s || devMem d rest
  | _ :: rest => devMem d rest

/-- `add_device_to_user` from `utils.py`: append the device if it is
non-empty and not already present. -/
def add_device_to_user (user_devices : List Json) (new_device : Str) : List Json :=
  if !new_device.isEmpty && !devMem new_device user_devices then
    user_devices ++ [.str new_device]
  else user_devices

/-- `parse_devices` from `utils.py`: `json.loads` of the column text when
it is non-empty, and `[]` when it is empty or `json.loads` raises (the
bare `except` branch).  Python would pass a non-array parse result on to
`add_device_to_user`, which then fails on it; the model folds that
failure into the `none` outcome here (such column values are not
produced by any API writer, which always stores a serialized list). -/
def parse_devices (devices_json : Str) : Option (List Json) :=
  if devices_json.isEmpty then some []
  else
    match loads devices_json with
    | some (.arr l) => some l
    | some _ => none
    | none => some []

/-- Response data of a successful login. -/
structure LoginData where
  user_id : Nat
  username : Str
  category : Option Str
  subteam : Str

/-- `POST /api/users` (`create_user`): reject a duplicate username with
409, otherwise insert a row whose device list contains the initial
device when one was given. -/
def create_user (st : UsersState) (d : UserCreate) (now : Nat) :
    Except Err Nat × UsersState :=
  match st.users.find? (fun u => u.username == d.username) with
  | some _ => (.error .conflict, st)
  | none =>
    let initial : List Json := match d.device with
      | some dev => if dev.isEmpty then [] else [.str dev]
      | none => []
    let row : UserRow :=
      { user_id := st.nextId
        username := d.username
        category := d.category
        subteam := d.subteam
        devices := dumpValue (.arr initial)
        last_login := some now
        created_at := now }
    (.ok st.nextId, { users := st.users ++ [row], nextId := st.nextId + 1 })

/-- `POST /api/users/login` (`login_user`): 404 for an unknown username;
otherwise parse the device list, add the device, store the serialized
list back and advance `last_login`. -/
def login_user (st : UsersState) (d : DeviceLogin) (now : Nat) :
    Except Err LoginData × UsersState :=
  match st.users.find? (fun u => u.username == d.username) with
  | none => (.error .notFound, st)
  | some u =>
    match parse_devices u.devices with
    | none => (.error .internal, st)
    | some devices0 =>
      let devices1 := add_device_to_user devices0 d.device
      let u' : UserRow :=
        { u with devices := dumpValue (.arr devices1), last_login := some now }
      (.ok { user_id := u.user_id, username := u.username,
             category := u.category, subteam := u.subteam },
       { st with users := updateFirst (fun v => v.username == d.username) (fun _ => u') st.users })

/-- Response data of `verify_user_password`. -/
structure VerifyData where
  valid : Bool

/-- `POST /api/users/verify` (`verify_user_password`): 404 for an unknown
username, otherwise success with `valid = true`; the password is never
consulted and nothing is written. -/
def verify_user_password (st : UsersState) (d : UserVerify) :
    Except Err VerifyData × UsersState :=
  match st.users.find? (fun u => u.username == d.username) with
  | none => (.error .notFound, st)
  | some _ => (.ok { valid := true }, st)

/-! ### Inventory (`models.InventoryItem`, `schemas.py`, `routers/inventory.py`) -/

/-- A row of the `inventory_items` table.  `part_number` is the only
NOT NULL column among those the handlers write; nullable columns are
`Option`s.  Costs are modelled as exact rationals. -/
structure InventoryItem where
  item_id : Nat
  part_number : Str
  quantity : Option Int
  description : Option Str
  category : Option Str
  location : Option Str
  subteam : Option Str
  cost : Option ℚ
  vendor : Option Str
  created_by : Option Str
  last_updated_by : Option Str
  created_at : Nat
  updated_at : Nat
  item_type : Option Str
  systems : Option Str
  case_code_in : Option Str
  size : Option Str
  link : Option Str
  company : Option Str
  notes : Option Str

/-- The inventory store. -/
structure InvState where
  items : List InventoryItem
  nextId : Nat

/-- `InventoryItemCreate` after pydantic validation: every optional text
field defaults to `None`, while `cost` defaults to `0.0`, so after
validation `cost = none` only when the request carried an explicit
`null`. -/
structure InventoryItemCreate where
  part_number : Str
  quantity : Int
  description : Option Str
  category : Option Str
  location : Option Str
  subteam : Option Str
  cost : Option ℚ
  vendor : Option Str
  created_by : Option Str
  item_type : Option Str
  systems : Option Str
  case_code_in : Option Str
  size : Option Str
  link : Option Str
  company : Option Str
  notes : Option Str

/-- The `cost` field as it arrives on the wire: `none` when the JSON
object omits the field, `some none` for an explicit `null`, and
`some (some c)` for a value.  Pydantic validation applies the schema
default `0.0` to an omitted field. -/
def validateCost (wire : Option (Option ℚ)) : Option ℚ :=
  match wire with
  | none => some 0
  | some v => v

/-- One merge step of the quantity column: accumulate only a non-zero
incoming quantity.  `none` models the uncaught `TypeError` of
`None += q` on a row whose quantity is NULL. -/
def accumulateQuantity (q : Option Int) (dq : Int) : Option (Option Int) :=
  if dq ≠ 0 then
    match q with
    | some q0 => some (some (q0 + dq))
    | none => none
  else some q

/-- The per-field guard of `create_inventory_item`: each text field is
merged only when the incoming value is truthy. -/
def mergeIfTruthy (existing incoming : Option Str) : Option Str :=
  if strTruthy incoming then merge_field existing incoming else existing

/-- The cost update of `create_inventory_item`: replaced outright when
the incoming value is not `None`, never summed. -/
def replaceIfPresent (existing incoming : Option ℚ) : Option ℚ :=
  match incoming with
  | none => existing
  | some c => some c

/-- Merge an incoming create payload into the existing row with the same
part number (`none` models the `TypeError` crash path of the quantity
accumulation). -/
def mergeExisting (it : InventoryItem) (d : InventoryItemCreate) (now : Nat) :
    Option InventoryItem :=
  match accumulateQuantity it.quantity d.quantity with
  | none => none
  | some q2 =>
    some { it with
      quantity := q2
      description := mergeIfTruthy it.description d.description
      category := mergeIfTruthy it.category d.category
      location := mergeIfTruthy it.location d.location
      subteam := mergeIfTruthy it.subteam d.subteam
      vendor := mergeIfTruthy it.vendor d.vendor
      item_type := mergeIfTruthy it.item_type d.item_type
      systems := mergeIfTruthy it.systems d.systems
      case_code_in := mergeIfTruthy it.case_code_in d.case_code_in
      size := mergeIfTruthy it.size d.size
      link := mergeIfTruthy it.link d.link
      company := mergeIfTruthy it.company d.company
      notes := mergeIfTruthy it.notes d.notes
      cost := replaceIfPresent it.cost d.cost
      last_updated_by := if strTruthy d.created_by then d.created_by else it.last_updated_by
      updated_at := now }

/-- A brand-new row built from a create payload. -/
def newItemOfCreate (d : InventoryItemCreate) (iid : Nat) (now : Nat) : InventoryItem :=
  { item_id := iid
    part_number := d.part_number
    quantity := some d.quantity
    description := d.description
    category := d.category
    location := d.location
    subteam := d.subteam
    cost := d.cost
    vendor := d.vendor
    created_by := d.created_by
    last_updated_by := d.created_by
    created_at := now
    updated_at := now
    item_type := d.item_type
    systems := d.systems
    case_code_in := d.case_code_in
    size := d.size
    link := d.link
    company := d.company
    notes := d.notes }

/-- The response message of a successful inventory create, kept
structurally (the updated-existing message interpolates the part number
and the new accumulated quantity). -/
inductive InvCreateMsg where
  | created : InvCreateMsg
  | updatedExisting (part_number : Str) (new_quantity : Option Int) : InvCreateMsg

/-- Response data of a successful inventory create. -/
structure InvCreateData where
  itemId : Nat
  message : InvCreateMsg

/-- `POST /api/inventory` (`create_inventory_item`): merge into the first
row with the same part number if one exists, otherwise insert. -/
def create_inventory_item (st : InvState) (d : InventoryItemCreate) (now : Nat) :
    Except Err InvCreateData × InvState :=
  match st.items.find? (fun it => it.part_number == d.part_number) with
  | some it =>
    match mergeExisting it d now with
    | none => (.error .internal, st)
    | some it2 =>
      (.ok { itemId := it2.item_id,
             message := .updatedExisting d.part_number it2.quantity },
       { st with items :=
           updateFirst (fun j => j.part_number == d.part_number) (fun _ => it2) st.items })
  | none =>
    let it := newItemOfCreate d st.nextId now
    (.ok { itemId := st.nextId, message := .created },
     { items := st.items ++ [it], nextId := st.nextId + 1 })

/-- `InventoryItemUpdate` with pydantic's `exclude_unset` presence
tracking: `none` means the field was not supplied, `some v` that it was
explicitly supplied with value `v` (which may itself be an explicit
`null`). -/
structure InventoryItemUpdate where
  part_number : Option (Option Str) := none
  quantity : Option (Option Int) := none
  description : Option (Option Str) := none
  category : Option (Option Str) := none
  location : Option (Option Str) := none
  subteam : Option (Option Str) := none
  cost : Option (Option ℚ) := none
  vendor : Option (Option Str) := none
  last_updated_by : Option (Option Str) := none
  item_type : Option (Option Str) := none
  systems : Option (Option Str) := none
  case_code_in : Option (Option Str) := none
  size : Option (Option Str) := none
  link : Option (Option Str) := none
  company : Option (Option Str) := none
  notes : Option (Option Str) := none

/-- `setattr` semantics of one field: keep the old value when the field
was not supplied. -/
def applyField {α : Type} (supplied : Option α) (old : α) : α :=
  match supplied with
  | none => old
  | some v => v

/-- Apply an `exclude_unset` partial update to a row and stamp
`updated_at`. -/
def applyUpdate (it : InventoryItem) (u : InventoryItemUpdate) (now : Nat) : InventoryItem :=
  { it with
    part_number := match u.part_number with
      | some (some s) => s
      | _ => it.part_number
    quantity := applyField u.quantity it.quantity
    description := applyField u.description it.description
    category := applyField u.category it.category
    location := applyField u.location it.location
    subteam := applyField u.subteam it.subteam
    cost := applyField u.cost it.cost
    vendor := applyField u.vendor it.vendor
    last_updated_by := applyField u.last_updated_by it.last_updated_by
    item_type := applyField u.item_type it.item_type
    systems := applyField u.systems it.systems
    case_code_in := applyField u.case_code_in it.case_code_in
    size := applyField u.size it.size
    link := applyField u.link it.link
    company := applyField u.company it.company
    notes := applyField u.notes it.notes
    updated_at := now }

/-- `PUT /api/inventory/item_id` (`update_inventory_item`): 404 when the
id is unknown; an explicit `null` part number violates the column's
NOT NULL constraint at commit time, surfacing as a 500 with nothing
written; otherwise overwrite exactly the supplied fields and stamp
`updated_at`. -/
def update_inventory_item (st : InvState) (item_id : Nat) (u : InventoryItemUpdate) (now : Nat) :
    Except Err Unit × InvState :=
  match st.items.find? (fun it => it.item_id == item_id) with
  | none => (.error .notFound, st)
  | some it =>
    match u.part_number with
    | some none => (.error .internal, st)
    | _ =>
      let it2 := applyUpdate it u now
      (.ok (),
       { st with items := updateFirst (fun j => j.item_id == item_id) (fun _ => it2) st.items })

/-! ### Inventory statistics -/

/-- `sum(item.quantity for item in items)`: `none` models the `TypeError`
on a NULL quantity. -/
def sumQuantities : List InventoryItem → Option Int
  | [] => some 0
  | it :: rest =>
    match it.quantity, sumQuantities rest with
    | some q, some s => some (q + s)
    | _, _ => none

/-- `item.category or default`: Python `or` picks the default for a NULL
or empty value. -/
def keyOrDefault (v : Option Str) (dflt : Str) : Str :=
  match v with
  | none => dflt
  | some s => if s.isEmpty then dflt else s

/-- Add `q` to `key`'s entry of an insertion-ordered association list,
appending a new entry when the key is absent (the dict-building loop of
`get_inventory_statistics`). -/
def bumpKey (key : Str) (q : Int) : List (Str × Int) → List (Str × Int)
  | [] => [(key, q)]
  | (k, v) :: rest => if k == key then (k, v + q) :: rest else (k, v) :: bumpKey key q rest

/-- Group quantity sums by `keyOf`, in first-seen key order; `none`
models the `TypeError` on a NULL quantity. -/
def groupSums (keyOf : InventoryItem → Str) : List InventoryItem → Option (List (Str × Int))
  | [] => some []
  | it :: rest =>
    match it.quantity with
    | none => none
    | some q =>
      match groupSums keyOf rest with
      | none => none
      | some m => some (bumpKey (keyOf it) q m)

/-- Response data of `GET /api/inventory/statistics`. -/
structure InvStatsData where
  totalItems : Nat
  totalQuantity : Int
  categories : List (Str × Int)
  subteams : List (Str × Int)
  uniquePartNumbers : Nat

/-- The category grouping key (`item.category or "Uncategorized"`). -/
def categoryKey (it : InventoryItem) : Str := keyOrDefault it.category "Uncategorized".toList

/-- The subteam grouping key (`item.subteam or "Unassigned"`). -/
def subteamKey (it : InventoryItem) : Str := keyOrDefault it.subteam "Unassigned".toList

/-- `GET /api/inventory/statistics` (`get_inventory_statistics` in
`routers/inventory.py`): full-scan count, quantity sum, groupings and
distinct part-number count.  Note: this live endpoint returns no
`totalValue` field. -/
def get_inventory_statistics (st : InvState) : Except Err InvStatsData :=
  match sumQuantities st.items with
  | none => .error .internal
  | some tq =>
    match groupSums categoryKey st.items, groupSums subteamKey st.items with
    | some cats, some subs =>
      .ok { totalItems := st.items.length
            totalQuantity := tq
            categories := cats
            subteams := subs
            uniquePartNumbers := (st.items.map (fun it => it.part_number)).dedup.length }
    | _, _ => .error .internal

/-- Python `x or 0` on an optional numeric value. -/
def pyOrZeroRat (c : Option ℚ) : ℚ :=
  match c with
  | none => 0
  | some x => if x = 0 then 0 else x

/-- Python `x or 0` on an optional integer. -/
def pyOrZeroInt (q : Option Int) : Int :=
  match q with
  | none => 0
  | some x => if x = 0 then 0 else x

/-- Round to the nearest integer, ties to even (Python's `round`). -/
def roundHalfEven (x : ℚ) : Int :=
  let f := ⌊x⌋
  let r := x - (f : ℚ)
  if r < 1 / 2 then f
  else if 1 / 2 < r then f + 1
  else if f % 2 = 0 then f else f + 1

/-- `round(x, 2)`: round to two decimal places, ties to even. -/
def round2 (x : ℚ) : ℚ := (roundHalfEven (x * 100) : ℚ) / 100

/-- Response data of the backup server's `GET /api/inventory/stats`. -/
structure BackupStatsData where
  totalItems : Nat
  totalQuantity : Int
  totalValue : ℚ

/-- `get_inventory_stats` from `main_backup.py`: the quantity sum skips
falsy (NULL or zero) quantities, and `totalValue` is
`sum((cost or 0) * (quantity or 0))` rounded to 2 decimals. -/
def get_inventory_stats (items : List InventoryItem) : BackupStatsData :=
  { totalItems := items.length
    totalQuantity :=
      (items.filterMap (fun it =>
        match it.quantity with
        | some q => if q = 0 then none else some q
        | none => none)).sum
    totalValue :=
      round2 ((items.map (fun it => pyOrZeroRat it.cost * (pyOrZeroInt it.quantity : ℚ))).sum) }

/-! ### Preferences (`models.UserPreference`, `routers/preferences.py`) -/

/-- A row of the `user_preferences` table (`username` is the primary
key; `preferences` is JSON text). -/
structure PrefRow where
  username : Str
  preferences : Str
  updated_at : Nat

/-- The preferences store. -/
abbrev PrefsState := List PrefRow

/-- `PreferenceUpdate` payload: pydantic's `dict` field is an
insertion-ordered object. -/
structure PreferenceUpdate where
  device_id : Str
  preferences : List (Str × Json)

/-- Response data of a preferences read; `updated_at` is absent for a
never-written key. -/
structure GetPrefData where
  username : Str
  preferences : Json
  updated_at : Option Nat

/-- `GET /api/preferences/user/username` (`get_user_preferences`): an
unknown key yields an empty blob with success, and unreadable stored
text falls back to an empty blob (the bare `except` branch). -/
def get_user_preferences (st : PrefsState) (username : Str) : GetPrefData :=
  match st.find? (fun p => p.username == username) with
  | none => { username := username, preferences := .obj [], updated_at := none }
  | some p =>
    { username := username
      preferences := match loads p.preferences with
        | some v => v
        | none => .obj []
      updated_at := some p.updated_at }

/-- `POST /api/preferences/user/username` (`update_user_preferences`):
serialize the blob and replace the existing row's text wholesale, or
insert a new row; the `updated_at` column's `onupdate`/default stamps
the current time on either path. -/
def update_user_preferences (st : PrefsState) (username : Str) (pd : PreferenceUpdate)
    (now : Nat) : Except Err Unit × PrefsState :=
  let preferences_json := dumpValue (.obj pd.preferences)
  match st.find? (fun p => p.username == username) with
  | some _ =>
    (.ok (),
     updateFirst (fun p => p.username == username)
       (fun p => { p with preferences := preferences_json, updated_at := now }) st)
  | none =>
    (.ok (), st ++ [{ username := username, preferences := preferences_json, updated_at := now }])

/-- `DELETE /api/preferences/user/username` (`delete_user_preferences`):
404 when the key is unknown, otherwise remove the row. -/
def delete_user_preferences (st : PrefsState) (username : Str) :
    Except Err Unit × PrefsState :=
  match st.find? (fun p => p.username == username) with
  | none => (.error .notFound, st)
  | some _ => (.ok (), st.eraseP (fun p => p.username == username))

/-- `GET /api/preferences/device_id` (`get_device_preferences`, legacy):
forwards to the username-addressed handler with the device id as the
username. -/
def get_device_preferences (st : PrefsState) (device_id : Str) : GetPrefData :=
  get_user_preferences st device_id

/-- `PUT /api/preferences/device_id` (`update_device_preferences`,
legacy): forwards to the username-addressed handler. -/
def update_device_preferences (st : PrefsState) (device_id : Str) (pd : PreferenceUpdate)
    (now : Nat) : Except Err Unit × PrefsState :=
  update_user_preferences st device_id pd now

/-- `DELETE /api/preferences/device_id` (`delete_device_preferences`,
legacy): forwards to the username-addressed handler. -/
def delete_device_preferences (st : PrefsState) (device_id : Str) :
    Except Err Unit × PrefsState :=
  delete_user_preferences st device_id

/-! ## Theorems -/

/-! ### List helper lemmas -/

theorem find?_updateFirst {α : Type} (p : α → Bool) (f : α → α) :
    ∀ (l : List α) (x : α), l.find? p = some x → p (f x) = true →
      (updateFirst p f l).find? p = some (f x) := by
  intro l
  induction l with
  | nil => intro x h _; simp [List.find?] at h
  | cons y t ih =>
    intro x h hp
    by_cases hy : p y
    · rw [List.find?_cons_of_pos _ hy] at h
      cases h
      simp [updateFirst, hy, List.find?_cons_of_pos _ hp]
    · rw [List.find?_cons_of_neg _ hy] at h
      simpa [updateFirst, hy, List.find?_cons_of_neg _ hy] using ih x h hp

theorem find?_append_singleton {α : Type} (p : α → Bool) (x : α) :
    ∀ l : List α, l.find? p = none →
      (l ++ [x]).find? p = (if p x then some x else none) := by
  intro l
  induction l with
  | nil => intro _; by_cases hx : p x <;> simp [List.find?, hx]
  | cons y t ih =>
    intro h
    rw [List.find?_cons] at h
    cases hy : p y with
    | true => rw [hy] at h; simp at h
    | false =>
      rw [hy] at h
      simpa [List.find?_cons, hy] using ih h

theorem exists_find?_of_mem {α : Type} (p : α → Bool) (l : List α) (x : α)
    (hx : x ∈ l) (hp : p x = true) : ∃ y, l.find? p = some y := by
  have : (l.find? p).isSome := List.find?_isSome.mpr ⟨x, hx, hp⟩
  exact Option.isSome_iff_exists.mp this

/-! ### C2 — `merge_field` -/

/-- C2 counterexample: the incoming value `"a"` is a case-insensitive
substring of the existing value `" A "`, yet `merge_field` does not keep
the existing value unchanged — it returns the stripped existing value
`"A"`. -/
theorem merge_field_counterexample :
    isSubstr (pyLower "a".toList) (pyLower " A ".toList) = true ∧
    merge_field (some " A ".toList) (some "a".toList) = some "A".toList ∧
    some "A".toList ≠ some " A ".toList := by
  decide

/-- C2 (amended): for every pair of string values, `merge_field` keeps
the existing value unchanged when the incoming value is empty or blank;
returns the trimmed incoming value when the existing value is empty or
blank; returns the **trimmed** existing value when the trimmed incoming
value is a case-insensitive substring of the trimmed existing value; and
otherwise returns the concatenation of the trimmed existing value,
`", "`, and the trimmed incoming value.  In particular the three
concrete examples of the specification hold. -/
theorem merge_field_spec :
    (∀ existing incoming : Str,
      merge_field (some existing) (some incoming) =
        if incoming = [] ∨ pyStrip incoming = [] then some existing
        else if existing = [] ∨ pyStrip existing = [] then some (pyStrip incoming)
        else if isSubstr (pyLower (pyStrip incoming)) (pyLower (pyStrip existing)) then
          some (pyStrip existing)
        else some (pyStrip existing ++ ',' :: ' ' :: pyStrip incoming))
  ∧ merge_field (some "Resistor".toList) (some "resistor".toList) = some "Resistor".toList
  ∧ merge_field (some "".toList) (some "Capacitor".toList) = some "Capacitor".toList
  ∧ merge_field (some "A".toList) (some "".toList) = some "A".toList := by
  refine ⟨?_, by decide, by decide, by decide⟩
  intro existing incoming
  by_cases h1 : incoming = [] ∨ pyStrip incoming = []
  · simp [merge_field, h1]
  · by_cases h2 : existing = [] ∨ pyStrip existing = []
    · simp [merge_field, h1, h2]
    · by_cases h3 : isSubstr (pyLower (pyStrip incoming)) (pyLower (pyStrip existing)) = true
      · simp [merge_field, h1, h2, h3]
      · simp [merge_field, h1, h2, h3]

/-! ### C5 — duplicate username on create -/

/-- C5: creating a user whose username equals an existing user's
username fails with Conflict (HTTP 409) and leaves the store — in
particular the existing row — completely unchanged; no user is
created. -/
theorem create_user_conflict (st : UsersState) (d : UserCreate) (now : Nat)
    (h : ∃ u ∈ st.users, u.username = d.username) :
    create_user st d now = (.error .conflict, st) ∧ Err.statusCode .conflict = 409 := by
  obtain ⟨u, hu, hn⟩ := h
  obtain ⟨x, hx⟩ := exists_find?_of_mem (fun v => v.username == d.username) st.users u hu
    (by simp [hn])
  exact ⟨by simp [create_user, hx], rfl⟩

/-- C5 witness at a concrete store. -/
theorem create_user_conflict_witness :
    (∃ u ∈ [(⟨1, "alice".toList, none, "s".toList, [], none, 0⟩ : UserRow)],
        u.username = "alice".toList) ∧
    create_user ⟨[⟨1, "alice".toList, none, "s".toList, [], none, 0⟩], 2⟩
        ⟨"alice".toList, "t".toList, none, none⟩ 5 =
      (.error .conflict, ⟨[⟨1, "alice".toList, none, "s".toList, [], none, 0⟩], 2⟩) ∧
    Err.statusCode .conflict = 409 := by
  refine ⟨⟨⟨1, "alice".toList, none, "s".toList, [], none, 0⟩, by simp, rfl⟩, ?_⟩
  exact create_user_conflict _ _ 5
    ⟨⟨1, "alice".toList, none, "s".toList, [], none, 0⟩, by simp, rfl⟩

/-! ### C10 — password-independent verification -/

/-- C10: a verify request for an existing username succeeds with
`valid = true` and leaves the store unchanged, and the supplied password
never influences the outcome: any two verify requests with the same
username and arbitrary (possibly different) passwords produce identical
results and identical states. -/
theorem verify_password_irrelevant :
    (∀ (st : UsersState) (d : UserVerify),
      (∃ u ∈ st.users, u.username = d.username) →
        verify_user_password st d = (.ok ⟨true⟩, st))
  ∧ (∀ (st : UsersState) (n p1 p2 : Str),
      verify_user_password st ⟨n, p1⟩ = verify_user_password st ⟨n, p2⟩) := by
  constructor
  · intro st d h
    obtain ⟨u, hu, hn⟩ := h
    obtain ⟨x, hx⟩ := exists_find?_of_mem (fun v => v.username == d.username) st.users u hu
      (by simp [hn])
    simp [verify_user_password, hx]
  · intro st n p1 p2
    rfl

/-- C10 witness at a concrete store. -/
theorem verify_password_irrelevant_witness :
    (∃ u ∈ [(⟨1, "alice".toList, none, "s".toList, [], none, 0⟩ : UserRow)],
        u.username = "alice".toList) ∧
    verify_user_password ⟨[⟨1, "alice".toList, none, "s".toList, [], none, 0⟩], 2⟩
        ⟨"alice".toList, "pw".toList⟩ =
      (.ok ⟨true⟩, ⟨[⟨1, "alice".toList, none, "s".toList, [], none, 0⟩], 2⟩) := by
  exact ⟨⟨⟨1, "alice".toList, none, "s".toList, [], none, 0⟩, by simp, rfl⟩,
    verify_password_irrelevant.1 _ _
      ⟨⟨1, "alice".toList, none, "s".toList, [], none, 0⟩, by simp, rfl⟩⟩

/-! ### C9 — legacy device aliasing -/

/-- C9: each legacy device-addressed preferences handler returns exactly
the same result and produces exactly the same store state as the
username-addressed handler invoked with the device identifier as the
username. -/
theorem device_alias :
    (∀ (st : PrefsState) (d : Str), get_device_preferences st d = get_user_preferences st d)
  ∧ (∀ (st : PrefsState) (d : Str) (pd : PreferenceUpdate) (now : Nat),
      update_device_preferences st d pd now = update_user_preferences st d pd now)
  ∧ (∀ (st : PrefsState) (d : Str), delete_device_preferences st d = delete_user_preferences st d) :=
  ⟨fun _ _ => rfl, fun _ _ _ _ => rfl, fun _ _ => rfl⟩

/-! ### C1 — quantity accumulation on create -/

theorem create_existing_shape (st : InvState) (d : InventoryItemCreate) (now : Nat)
    (it it2 : InventoryItem)
    (hfind : st.items.find? (fun j => j.part_number == d.part_number) = some it)
    (hmerge : mergeExisting it d now = some it2)
    (hpn : it2.part_number = it.part_number) :
    (create_inventory_item st d now).2.items.find? (fun j => j.part_number == d.part_number)
      = some it2 := by
  have hp : (it.part_number == d.part_number) = true := by
    have := List.find?_some hfind
    simpa using this
  have hp2 : (it2.part_number == d.part_number) = true := by rw [hpn]; exact hp
  simp only [create_inventory_item, hfind, hmerge]
  exact find?_updateFirst _ _ _ _ hfind hp2

theorem mergeExisting_part_number (it : InventoryItem) (d : InventoryItemCreate) (now : Nat)
    (it2 : InventoryItem) (hmerge : mergeExisting it d now = some it2) :
    it2.part_number = it.part_number := by
  unfold mergeExisting at hmerge
  cases haq : accumulateQuantity it.quantity d.quantity with
  | none => rw [haq] at hmerge; exact absurd hmerge (by simp)
  | some q2 => rw [haq] at hmerge; cases hmerge; rfl

/-- C1: on a create whose part number matches an existing record, the
stored quantity becomes the existing quantity plus the incoming quantity
when the incoming quantity is non-zero, and stays unchanged when the
incoming quantity is zero; and two sequential creates of a previously
absent part number with non-zero quantities `q1`, `q2` leave the
record's quantity at `q1 + q2`. -/
theorem create_quantity_accumulation :
    (∀ (st : InvState) (d : InventoryItemCreate) (now : Nat) (it : InventoryItem) (q : Int),
      st.items.find? (fun j => j.part_number == d.part_number) = some it →
      it.quantity = some q → d.quantity ≠ 0 →
      ∃ it2, (create_inventory_item st d now).2.items.find?
          (fun j => j.part_number == d.part_number) = some it2 ∧
        it2.quantity = some (q + d.quantity))
  ∧ (∀ (st : InvState) (d : InventoryItemCreate) (now : Nat) (it : InventoryItem),
      st.items.find? (fun j => j.part_number == d.part_number) = some it →
      d.quantity = 0 →
      ∃ it2, (create_inventory_item st d now).2.items.find?
          (fun j => j.part_number == d.part_number) = some it2 ∧
        it2.quantity = it.quantity)
  ∧ (∀ (st : InvState) (d1 d2 : InventoryItemCreate) (n1 n2 : Nat),
      d1.part_number = d2.part_number →
      st.items.find? (fun j => j.part_number == d1.part_number) = none →
      d1.quantity ≠ 0 → d2.quantity ≠ 0 →
      ∃ it2, (create_inventory_item (create_inventory_item st d1 n1).2 d2 n2).2.items.find?
          (fun j => j.part_number == d2.part_number) = some it2 ∧
        it2.quantity = some (d1.quantity + d2.quantity)) := by
  have merge_quantity : ∀ (it : InventoryItem) (d : InventoryItemCreate) (now : Nat) (q : Int),
      it.quantity = some q → d.quantity ≠ 0 →
      ∃ it2, mergeExisting it d now = some it2 ∧ it2.quantity = some (q + d.quantity) := by
    intro it d now q hq hdq
    have haq : accumulateQuantity it.quantity d.quantity = some (some (q + d.quantity)) := by
      simp [accumulateQuantity, hq, hdq]
    exact ⟨_, by unfold mergeExisting; rw [haq], rfl⟩
  have partA : ∀ (st : InvState) (d : InventoryItemCreate) (now : Nat) (it : InventoryItem)
      (q : Int),
      st.items.find? (fun j => j.part_number == d.part_number) = some it →
      it.quantity = some q → d.quantity ≠ 0 →
      ∃ it2, (create_inventory_item st d now).2.items.find?
          (fun j => j.part_number == d.part_number) = some it2 ∧
        it2.quantity = some (q + d.quantity) := by
    intro st d now it q hfind hq hdq
    obtain ⟨it2, hmerge, hq2⟩ := merge_quantity it d now q hq hdq
    exact ⟨it2, create_existing_shape st d now it it2 hfind hmerge
      (mergeExisting_part_number it d now it2 hmerge), hq2⟩
  refine ⟨partA, ?_, ?_⟩
  · intro st d now it hfind hdq
    have hmerge : mergeExisting it d now = some ({ it with
        description := mergeIfTruthy it.description d.description
        category := mergeIfTruthy it.category d.category
        location := mergeIfTruthy it.location d.location
        subteam := mergeIfTruthy it.subteam d.subteam
        vendor := mergeIfTruthy it.vendor d.vendor
        item_type := mergeIfTruthy it.item_type d.item_type
        systems := mergeIfTruthy it.systems d.systems
        case_code_in := mergeIfTruthy it.case_code_in d.case_code_in
        size := mergeIfTruthy it.size d.size
        link := mergeIfTruthy it.link d.link
        company := mergeIfTruthy it.company d.company
        notes := mergeIfTruthy it.notes d.notes
        cost := replaceIfPresent it.cost d.cost
        last_updated_by := if strTruthy d.created_by then d.created_by else it.last_updated_by
        updated_at := now }) := by
      unfold mergeExisting
      rw [show accumulateQuantity it.quantity d.quantity = some it.quantity by
        simp [accumulateQuantity, hdq]]
    exact ⟨_, create_existing_shape st d now it _ hfind hmerge
      (mergeExisting_part_number it d now _ hmerge), rfl⟩
  · intro st d1 d2 n1 n2 hpn hfind _ hdq2
    have hstep : (create_inventory_item st d1 n1).2.items
        = st.items ++ [newItemOfCreate d1 st.nextId n1] := by
      simp [create_inventory_item, hfind]
    have hfind1 : (create_inventory_item st d1 n1).2.items.find?
        (fun j => j.part_number == d2.part_number) = some (newItemOfCreate d1 st.nextId n1) := by
      rw [hstep, ← hpn]
      rw [find?_append_singleton _ _ _ hfind]
      simp [newItemOfCreate]
    obtain ⟨it2, hfind2, hq2⟩ := partA (create_inventory_item st d1 n1).2 d2 n2
      (newItemOfCreate d1 st.nextId n1) d1.quantity hfind1 rfl hdq2
    exact ⟨it2, hfind2, hq2⟩

/-- C1 witness: a fresh part number created with quantity 4, then again
with quantity 3, ends at quantity 7 (and all three hypotheses are
satisfiable). -/
theorem create_quantity_accumulation_witness :
    (⟨[], 1⟩ : InvState).items.find?
        (fun j => j.part_number == ("p".toList : Str)) = none ∧
    (∃ it2, (create_inventory_item
        (create_inventory_item ⟨[], 1⟩
          ⟨"p".toList, 4, none, none, none, none, none, none, none, none, none,
           none, none, none, none, none⟩ 10).2
        ⟨"p".toList, 3, none, none, none, none, none, none, none, none, none,
         none, none, none, none, none⟩ 11).2.items.find?
          (fun j => j.part_number == ("p".toList : Str)) = some it2 ∧
      it2.quantity = some (4 + 3)) := by
  refine ⟨rfl, ?_⟩
  exact create_quantity_accumulation.2.2 ⟨[], 1⟩
    ⟨"p".toList, 4, none, none, none, none, none, none, none, none, none,
     none, none, none, none, none⟩
    ⟨"p".toList, 3, none, none, none, none, none, none, none, none, none,
     none, none, none, none, none⟩ 10 11 rfl rfl (by decide) (by decide)

/-! ### C3 — cost handling on create -/

/-- C3 counterexample: a create request whose JSON body **omits** the
cost field does not leave the stored cost unchanged.  Pydantic fills the
schema default `0.0` for the omitted field, the handler sees a non-`None`
cost, and the stored cost 5 is replaced by 0. -/
theorem create_cost_absent_counterexample :
    validateCost none = some 0 ∧
    ((create_inventory_item
        ⟨[⟨1, "p".toList, some 1, none, none, none, none, some 5, none, none, none, 0, 0,
           none, none, none, none, none, none, none⟩], 2⟩
        ⟨"p".toList, 0, none, none, none, none, validateCost none, none, none, none, none,
         none, none, none, none, none⟩ 9).2.items.map (fun it => it.cost)) = [some 0] ∧
    (some (0 : ℚ) ≠ some (5 : ℚ)) := by
  refine ⟨rfl, ?_, by decide⟩
  rfl

/-- C3 (amended): on a create whose part number matches an existing
record, the stored cost is replaced outright by the incoming cost
whenever the incoming cost is non-`None` after validation, and is never
summed with the existing cost.  An explicit JSON `null` is the only way
to leave the stored cost unchanged; an **omitted** cost field receives
the schema default `0.0` and therefore replaces the stored cost with 0. -/
theorem create_cost_replacement :
    ∀ (st : InvState) (d : InventoryItemCreate) (now : Nat) (it : InventoryItem)
      (wire : Option (Option ℚ)),
      st.items.find? (fun j => j.part_number == d.part_number) = some it →
      d.cost = validateCost wire →
      (d.quantity = 0 ∨ it.quantity ≠ none) →
      ∃ it2, (create_inventory_item st d now).2.items.find?
          (fun j => j.part_number == d.part_number) = some it2 ∧
        it2.cost = (match wire with
          | some (some c) => some c
          | some none => it.cost
          | none => some 0) := by
  intro st d now it wire hfind hcost hq
  have haq : ∃ q2, accumulateQuantity it.quantity d.quantity = some q2 := by
    rcases hq with h0 | hsome
    · exact ⟨it.quantity, by simp [accumulateQuantity, h0]⟩
    · match hqq : it.quantity with
      | some q0 =>
        by_cases hdq : d.quantity = 0
        · exact ⟨it.quantity, by simp [accumulateQuantity, hdq, hqq]⟩
        · exact ⟨some (q0 + d.quantity), by simp [accumulateQuantity, hqq, hdq]⟩
      | none => exact absurd hqq hsome
  obtain ⟨q2, haq⟩ := haq
  have hmerge : ∃ it2, mergeExisting it d now = some it2 ∧
      it2.cost = replaceIfPresent it.cost d.cost := by
    exact ⟨_, by unfold mergeExisting; rw [haq], rfl⟩
  obtain ⟨it2, hmerge, hc2⟩ := hmerge
  refine ⟨it2, create_existing_shape st d now it it2 hfind hmerge
    (mergeExisting_part_number it d now it2 hmerge), ?_⟩
  rw [hc2, hcost]
  cases wire with
  | none => rfl
  | some v => cases v <;> rfl

/-- C3 witness: concrete instantiations of the three wire cases —
omitted cost replaces with 0, explicit `null` keeps the old cost, and a
present cost replaces outright. -/
theorem create_cost_replacement_witness :
    ((⟨[⟨1, "p".toList, some 1, none, none, none, none, some 5, none, none, none, 0, 0,
        none, none, none, none, none, none, none⟩], 2⟩ : InvState).items.find?
      (fun j => j.part_number == ("p".toList : Str)) =
        some ⟨1, "p".toList, some 1, none, none, none, none, some 5, none, none, none, 0, 0,
          none, none, none, none, none, none, none⟩) ∧
    (∃ it2, (create_inventory_item
        ⟨[⟨1, "p".toList, some 1, none, none, none, none, some 5, none, none, none, 0, 0,
           none, none, none, none, none, none, none⟩], 2⟩
        ⟨"p".toList, 0, none, none, none, none, validateCost (some (some 7)), none, none,
         none, none, none, none, none, none, none⟩ 9).2.items.find?
          (fun j => j.part_number == ("p".toList : Str)) = some it2 ∧
      it2.cost = some 7) := by
  refine ⟨rfl, ?_⟩
  have h := create_cost_replacement
    ⟨[⟨1, "p".toList, some 1, none, none, none, none, some 5, none, none, none, 0, 0,
       none, none, none, none, none, none, none⟩], 2⟩
    ⟨"p".toList, 0, none, none, none, none, validateCost (some (some 7)), none, none,
     none, none, none, none, none, none, none⟩ 9
    ⟨1, "p".toList, some 1, none, none, none, none, some 5, none, none, none, 0, 0,
     none, none, none, none, none, none, none⟩
    (some (some 7)) rfl rfl (Or.inl rfl)
  exact h

/-! ### C8 — exclude-unset partial update -/

theorem applyField_eq_getD {α : Type} (s : Option α) (old : α) :
    applyField s old = s.getD old := by
  cases s <;> rfl

/-- C8: updating an existing inventory item by id overwrites exactly the
fields explicitly supplied in the partial-update payload; every field
not supplied keeps its previous value, with the sole exception of
`updated_at`, which is stamped with the current time (immutable columns
`item_id`, `created_by`, `created_at` are likewise untouched).  The
supplied part number must not be an explicit `null` (that violates the
column's NOT NULL constraint and nothing is written). -/
theorem update_partial_frame :
    ∀ (st : InvState) (item_id : Nat) (u : InventoryItemUpdate) (now : Nat)
      (it : InventoryItem),
      st.items.find? (fun j => j.item_id == item_id) = some it →
      u.part_number ≠ some none →
      (update_inventory_item st item_id u now).1 = .ok () ∧
      ∃ it2, (update_inventory_item st item_id u now).2.items.find?
          (fun j => j.item_id == item_id) = some it2 ∧
        it2.part_number = (match u.part_number with
          | some (some s) => s
          | _ => it.part_number) ∧
        it2.quantity = u.quantity.getD it.quantity ∧
        it2.description = u.description.getD it.description ∧
        it2.category = u.category.getD it.category ∧
        it2.location = u.location.getD it.location ∧
        it2.subteam = u.subteam.getD it.subteam ∧
        it2.cost = u.cost.getD it.cost ∧
        it2.vendor = u.vendor.getD it.vendor ∧
        it2.last_updated_by = u.last_updated_by.getD it.last_updated_by ∧
        it2.item_type = u.item_type.getD it.item_type ∧
        it2.systems = u.systems.getD it.systems ∧
        it2.case_code_in = u.case_code_in.getD it.case_code_in ∧
        it2.size = u.size.getD it.size ∧
        it2.link = u.link.getD it.link ∧
        it2.company = u.company.getD it.company ∧
        it2.notes = u.notes.getD it.notes ∧
        it2.updated_at = now ∧
        it2.item_id = it.item_id ∧
        it2.created_by = it.created_by ∧
        it2.created_at = it.created_at := by
  intro st item_id u now it hfind hpn
  have hp := List.find?_some hfind
  have happly : ∀ hid : (applyUpdate it u now).item_id = it.item_id,
      (updateFirst (fun j => j.item_id == item_id) (fun _ => applyUpdate it u now)
        st.items).find? (fun j => j.item_id == item_id) = some (applyUpdate it u now) := by
    intro hid
    refine find?_updateFirst _ _ _ _ hfind ?_
    show ((applyUpdate it u now).item_id == item_id) = true
    rw [hid]
    exact hp
  have hid : (applyUpdate it u now).item_id = it.item_id := rfl
  have hresult : update_inventory_item st item_id u now =
      (.ok (),
       { st with
         items := updateFirst (fun j => j.item_id == item_id)
             (fun _ => applyUpdate it u now) st.items }) := by
    match hw : u.part_number with
    | none => simp [update_inventory_item, hfind, hw]
    | some none => exact absurd hw hpn
    | some (some s) => simp [update_inventory_item, hfind, hw]
  refine ⟨by rw [hresult], applyUpdate it u now, ?_, ?_⟩
  · rw [hresult]
    exact happly hid
  · refine ⟨rfl, ?_, ?_, ?_, ?_, ?_, ?_, ?_, ?_, ?_, ?_, ?_, ?_, ?_, ?_, ?_, rfl, rfl, rfl, rfl⟩
      <;> simp [applyUpdate, applyField_eq_getD]

/-- C8 witness: a concrete update supplying only `quantity` and
`location` overwrites those two fields and keeps the rest. -/
theorem update_partial_frame_witness :
    ((⟨[⟨1, "p".toList, some 1, some "d".toList, none, some "L0".toList, none, some 5, none,
        some "al".toList, some "al".toList, 3, 3, none, none, none, none, none, none,
        none⟩], 2⟩ : InvState).items.find? (fun j => j.item_id == 1) =
      some ⟨1, "p".toList, some 1, some "d".toList, none, some "L0".toList, none, some 5, none,
        some "al".toList, some "al".toList, 3, 3, none, none, none, none, none, none, none⟩) ∧
    (update_inventory_item
      ⟨[⟨1, "p".toList, some 1, some "d".toList, none, some "L0".toList, none, some 5, none,
         some "al".toList, some "al".toList, 3, 3, none, none, none, none, none, none,
         none⟩], 2⟩ 1
      { quantity := some (some 9), location := some (some "L1".toList) } 8).1 = .ok () := by
  refine ⟨rfl, ?_⟩
  exact (update_partial_frame
    ⟨[⟨1, "p".toList, some 1, some "d".toList, none, some "L0".toList, none, some 5, none,
       some "al".toList, some "al".toList, 3, 3, none, none, none, none, none, none, none⟩], 2⟩
    1 { quantity := some (some 9), location := some (some "L1".toList) } 8
    ⟨1, "p".toList, some 1, some "d".toList, none, some "L0".toList, none, some 5, none,
     some "al".toList, some "al".toList, 3, 3, none, none, none, none, none, none, none⟩
    rfl (by simp)).1

/-! ### C7 — statistics totals -/

theorem sumQuantities_all_some :
    ∀ (items : List InventoryItem) (qs : List Int),
      items.map (fun it => it.quantity) = qs.map some →
      sumQuantities items = some qs.sum := by
  intro items
  induction items with
  | nil =>
    intro qs h
    cases qs with
    | nil => rfl
    | cons q t => simp at h
  | cons it rest ih =>
    intro qs h
    cases qs with
    | nil => simp at h
    | cons q t =>
      simp only [List.map_cons, List.cons.injEq] at h
      obtain ⟨hq, ht⟩ := h
      simp [sumQuantities, hq, ih t ht, List.sum_cons]

theorem groupSums_all_some :
    ∀ (keyOf : InventoryItem → Str) (items : List InventoryItem) (qs : List Int),
      items.map (fun it => it.quantity) = qs.map some →
      ∃ m, groupSums keyOf items = some m := by
  intro keyOf items
  induction items with
  | nil => intro qs _; exact ⟨[], rfl⟩
  | cons it rest ih =>
    intro qs h
    cases qs with
    | nil => simp at h
    | cons q t =>
      simp only [List.map_cons, List.cons.injEq] at h
      obtain ⟨hq, ht⟩ := h
      obtain ⟨m, hm⟩ := ih t ht
      exact ⟨bumpKey (keyOf it) q m, by simp [groupSums, hq, hm]⟩

theorem backup_quantity_skips_falsy :
    ∀ (items : List InventoryItem) (qs : List Int),
      items.map (fun it => it.quantity) = qs.map some →
      (items.filterMap (fun it =>
        match it.quantity with
        | some q => if q = 0 then none else some q
        | none => none)).sum = qs.sum := by
  intro items
  induction items with
  | nil =>
    intro qs h
    cases qs with
    | nil => rfl
    | cons q t => simp at h
  | cons it rest ih =>
    intro qs h
    cases qs with
    | nil => simp at h
    | cons q t =>
      simp only [List.map_cons, List.cons.injEq] at h
      obtain ⟨hq, ht⟩ := h
      have h2 := ih t ht
      by_cases hz : q = 0
      · simp [List.filterMap_cons, hq, hz, h2, List.sum_cons]
      · simp [List.filterMap_cons, hq, hz, h2, List.sum_cons]

theorem pyOrZeroRat_eq_getD (c : Option ℚ) : pyOrZeroRat c = c.getD 0 := by
  cases c with
  | none => rfl
  | some x =>
    by_cases hx : x = 0
    · simp [pyOrZeroRat, hx]
    · simp [pyOrZeroRat, hx]

theorem roundHalfEven_intCast (n : Int) : roundHalfEven ((n : Int) : ℚ) = n := by
  simp [roundHalfEven, Int.floor_intCast]

theorem pyOrZeroInt_eq_getD (q : Option Int) : pyOrZeroInt q = q.getD 0 := by
  cases q with
  | none => rfl
  | some x =>
    by_cases hx : x = 0
    · simp [pyOrZeroInt, hx]
    · simp [pyOrZeroInt, hx]

/-- C7: when every stored quantity is non-NULL, the live statistics
endpoint succeeds and reports `totalQuantity` equal to the sum of the
quantities over all items, and the backup statistics endpoint reports
the same `totalQuantity` (its falsy-skipping generator drops only
zeros) and `totalValue` equal to the sum of cost times quantity over
all items (NULLs read as 0), rounded to two decimals. -/
theorem statistics_totals :
    ∀ (st : InvState) (qs : List Int),
      st.items.map (fun it => it.quantity) = qs.map some →
      (∃ data, get_inventory_statistics st = .ok data ∧
        data.totalQuantity = qs.sum ∧ data.totalItems = st.items.length) ∧
      (get_inventory_stats st.items).totalQuantity = qs.sum ∧
      (get_inventory_stats st.items).totalValue =
        round2 ((st.items.map (fun it =>
          (it.cost.getD 0) * ((it.quantity.getD 0 : Int) : ℚ))).sum) := by
  intro st qs h
  obtain ⟨mc, hmc⟩ := groupSums_all_some categoryKey st.items qs h
  obtain ⟨ms, hms⟩ := groupSums_all_some subteamKey st.items qs h
  refine ⟨⟨⟨st.items.length, qs.sum, mc, ms,
      (st.items.map (fun it => it.part_number)).dedup.length⟩, ?_, rfl, rfl⟩,
    backup_quantity_skips_falsy st.items qs h, ?_⟩
  · simp [get_inventory_statistics, sumQuantities_all_some st.items qs h, hmc, hms]
  · simp [get_inventory_stats, pyOrZeroRat_eq_getD, pyOrZeroInt_eq_getD]

/-- C7 witness: the three-item fixture with quantities 2, 3, 5 and costs
3/2, NULL, 2 yields `totalQuantity = 10` and `totalValue = 13.00`. -/
theorem statistics_totals_witness :
    ([(⟨1, "a".toList, some 2, none, none, none, none, some (3/2), none, none, none, 0, 0,
        none, none, none, none, none, none, none⟩ : InventoryItem),
      ⟨2, "b".toList, some 3, none, none, none, none, none, none, none, none, 0, 0,
        none, none, none, none, none, none, none⟩,
      ⟨3, "c".toList, some 5, none, none, none, none, some 2, none, none, none, 0, 0,
        none, none, none, none, none, none, none⟩].map (fun it => it.quantity)
      = ([2, 3, 5] : List Int).map some) ∧
    (∃ data, get_inventory_statistics
        ⟨[⟨1, "a".toList, some 2, none, none, none, none, some (3/2), none, none, none, 0, 0,
           none, none, none, none, none, none, none⟩,
          ⟨2, "b".toList, some 3, none, none, none, none, none, none, none, none, 0, 0,
           none, none, none, none, none, none, none⟩,
          ⟨3, "c".toList, some 5, none, none, none, none, some 2, none, none, none, 0, 0,
           none, none, none, none, none, none, none⟩], 4⟩ = .ok data ∧
      data.totalQuantity = (10 : Int)) ∧
    (get_inventory_stats
        [⟨1, "a".toList, some 2, none, none, none, none, some (3/2), none, none, none, 0, 0,
          none, none, none, none, none, none, none⟩,
         ⟨2, "b".toList, some 3, none, none, none, none, none, none, none, none, 0, 0,
          none, none, none, none, none, none, none⟩,
         ⟨3, "c".toList, some 5, none, none, none, none, some 2, none, none, none, 0, 0,
          none, none, none, none, none, none, none⟩]).totalValue = 13 := by
  refine ⟨rfl, ?_, ?_⟩
  · obtain ⟨⟨data, hok, hq, _⟩, _, _⟩ := statistics_totals
      ⟨[⟨1, "a".toList, some 2, none, none, none, none, some (3/2), none, none, none, 0, 0,
         none, none, none, none, none, none, none⟩,
        ⟨2, "b".toList, some 3, none, none, none, none, none, none, none, none, 0, 0,
         none, none, none, none, none, none, none⟩,
        ⟨3, "c".toList, some 5, none, none, none, none, some 2, none, none, none, 0, 0,
         none, none, none, none, none, none, none⟩], 4⟩ [2, 3, 5] rfl
    exact ⟨data, hok, by rw [hq]; decide⟩
  · have hsum : round2 (13 : ℚ) = 13 := by
      rw [round2]
      rw [show ((13 : ℚ) * 100) = ((1300 : ℤ) : ℚ) by norm_num]
      rw [roundHalfEven_intCast]
      norm_num
    simp only [get_inventory_stats]
    convert hsum using 2
    norm_num [pyOrZeroRat, pyOrZeroInt]

/-! ### JSON round-trip, part 1: character and token lemmas -/

theorem skipWs_cons_of_not_ws {c : Char} {s : Str} (h : isWs c = false) :
    skipWs (c :: s) = c :: s := by
  simp [skipWs, h]

theorem parseValue_ws (fuel : Nat) {c : Char} (s : Str) (h : isWs c = true) :
    parseValue fuel (c :: s) = parseValue fuel s := by
  cases fuel with
  | zero => rfl
  | succ f =>
    simp only [parseValue]
    rw [show skipWs (c :: s) = skipWs s from by simp [skipWs, h]]

theorem parseStringBody_round :
    ∀ (s rest : Str), parseStringBody (escapeString s ++ '"' :: rest) = some (s, rest) := by
  intro s
  induction s with
  | nil =>
    intro rest
    rw [show escapeString [] ++ '"' :: rest = '"' :: rest from rfl, parseStringBody.eq_def]
    simp
  | cons c cs ih =>
    intro rest
    by_cases hq : c = '"'
    · subst hq
      rw [show escapeString ('"' :: cs) ++ '"' :: rest
          = '\\' :: '"' :: (escapeString cs ++ '"' :: rest) from by simp [escapeString],
        parseStringBody.eq_def]
      simp [ih rest]
    · by_cases hb : c = '\\'
      · subst hb
        rw [show escapeString ('\\' :: cs) ++ '"' :: rest
            = '\\' :: '\\' :: (escapeString cs ++ '"' :: rest) from by simp [escapeString],
          parseStringBody.eq_def]
        simp [ih rest]
      · rw [show escapeString (c :: cs) ++ '"' :: rest
            = c :: (escapeString cs ++ '"' :: rest) from by simp [escapeString, hq, hb],
          parseStringBody.eq_def]
        simp [hq, hb, ih rest]

theorem natDigitsRev_eq_digits :
    ∀ (fuel n : Nat), n ≤ fuel → natDigitsRev fuel n = Nat.digits 10 n := by
  intro fuel
  induction fuel with
  | zero =>
    intro n hn
    interval_cases n
    simp [natDigitsRev]
  | succ f ih =>
    intro n hn
    cases n with
    | zero => simp [natDigitsRev]
    | succ m =>
      rw [show natDigitsRev (f + 1) (m + 1) = (m + 1) % 10 :: natDigitsRev f ((m + 1) / 10)
          from by simp only [natDigitsRev]]
      rw [Nat.digits_def' (by norm_num : 1 < 10) (Nat.succ_pos m)]
      rw [ih _ (by
        have := Nat.div_lt_self (Nat.succ_pos m) (by norm_num : (1:Nat) < 10)
        omega)]

theorem charToDigit_digitChar {d : Nat} (h : d < 10) :
    charToDigit (Nat.digitChar d) = d := by
  interval_cases d <;> rfl

theorem isDigitChar_digitChar {d : Nat} (h : d < 10) :
    isDigitChar (Nat.digitChar d) = true := by
  interval_cases d <;> rfl

theorem dumpNat_ne_nil (n : Nat) : dumpNat n ≠ [] := by
  by_cases h : n = 0
  · simp [dumpNat, h]
  · simp only [dumpNat, if_neg h]
    intro hcontra
    have hd := natDigitsRev_eq_digits n n le_rfl
    have hne : Nat.digits 10 n ≠ [] := Nat.digits_ne_nil_iff_ne_zero.mpr h
    rw [hd] at hcontra
    simp at hcontra
    exact hne hcontra

theorem dumpNat_all_digits (n : Nat) : ∀ c ∈ dumpNat n, isDigitChar c = true := by
  by_cases h : n = 0
  · intro c hc
    simp [dumpNat, h] at hc
    subst hc
    rfl
  · simp only [dumpNat, if_neg h, natDigitsRev_eq_digits n n le_rfl]
    intro c hc
    rw [List.mem_reverse, List.mem_map] at hc
    obtain ⟨d, hd, rfl⟩ := hc
    exact isDigitChar_digitChar (Nat.digits_lt_base (by norm_num) hd)

theorem map_id_of_mem {α : Type} (l : List α) (f : α → α) (h : ∀ y ∈ l, f y = y) :
    l.map f = l := by
  induction l with
  | nil => rfl
  | cons a t ih =>
    rw [List.map_cons, h a (List.mem_cons_self a t),
      ih (fun b hb => h b (List.mem_cons_of_mem a hb))]

theorem parseNatDigits_dumpNat (n : Nat) : parseNatDigits (dumpNat n) = n := by
  by_cases h : n = 0
  · simp [dumpNat, h, parseNatDigits, charToDigit, Nat.ofDigits]
  · simp only [dumpNat, if_neg h, natDigitsRev_eq_digits n n le_rfl, parseNatDigits]
    rw [List.map_reverse, List.reverse_reverse, List.map_map]
    rw [map_id_of_mem (Nat.digits 10 n) (charToDigit ∘ Nat.digitChar)
      (fun d hd => charToDigit_digitChar (Nat.digits_lt_base (by norm_num) hd))]
    exact Nat.ofDigits_digits 10 n

theorem takeDigits_spec :
    ∀ (ds rest : Str), (∀ c ∈ ds, isDigitChar c = true) → noDigitStart rest = true →
      takeDigits (ds ++ rest) = (ds, rest) := by
  intro ds
  induction ds with
  | nil =>
    intro rest _ hrest
    cases rest with
    | nil => rfl
    | cons c r =>
      simp only [noDigitStart, Bool.not_eq_true'] at hrest
      simp [takeDigits, hrest]
  | cons c t ih =>
    intro rest hds hrest
    have hc : isDigitChar c = true := hds c (by simp)
    simp [takeDigits, hc, ih rest (fun x hx => hds x (by simp [hx])) hrest]

/-! ### JSON round-trip, part 2: head-character and measure lemmas -/

theorem isDigitChar_notSpecial {c : Char} (h : isDigitChar c = true) :
    isWs c = false ∧ c ≠ '"' ∧ c ≠ '[' ∧ c ≠ lbrace ∧ c ≠ '-' ∧ c ≠ ']' ∧ c ≠ rbrace ∧
      c ≠ ',' ∧ c ≠ 'n' ∧ c ≠ 't' ∧ c ≠ 'f' := by
  refine ⟨?_, ?_, ?_, ?_, ?_, ?_, ?_, ?_, ?_, ?_, ?_⟩
  · cases hw : isWs c with
    | false => rfl
    | true =>
      simp only [isWs, decide_eq_true_eq] at hw
      rcases hw with rfl | rfl | rfl | rfl <;> exact absurd h (by decide)
  all_goals (rintro rfl; exact absurd h (by decide))

theorem noDigitStart_elemsTail (t : List Json) (rest : Str) :
    noDigitStart (dumpElemsTail t ++ ']' :: rest) = true := by
  cases t with
  | nil => simp [dumpElemsTail, noDigitStart]; rfl
  | cons x xs => simp [dumpElemsTail, noDigitStart]; rfl

theorem noDigitStart_fieldsTail (t : List (Str × Json)) (rest : Str) :
    noDigitStart (dumpFieldsTail t ++ rbrace :: rest) = true := by
  cases t with
  | nil => simp [dumpFieldsTail, noDigitStart]; rfl
  | cons kv xs =>
    obtain ⟨k, v⟩ := kv
    simp [dumpFieldsTail, noDigitStart]; rfl

theorem dumpValue_head_cons (v : Json) :
    ∃ c cs, dumpValue v = c :: cs ∧ isWs c = false ∧ c ≠ ']' ∧ c ≠ rbrace ∧ c ≠ ',' := by
  cases v with
  | null => exact ⟨'n', _, rfl, by decide, by decide, by decide, by decide⟩
  | bool b =>
    cases b with
    | true => exact ⟨'t', _, rfl, by decide, by decide, by decide, by decide⟩
    | false => exact ⟨'f', _, rfl, by decide, by decide, by decide, by decide⟩
  | str s => exact ⟨'"', _, rfl, by decide, by decide, by decide, by decide⟩
  | arr xs => exact ⟨'[', _, rfl, by decide, by decide, by decide, by decide⟩
  | obj kvs => exact ⟨lbrace, _, rfl, by decide, by decide, by decide, by decide⟩
  | num n =>
    by_cases hneg : n < 0
    · refine ⟨'-', dumpNat n.natAbs, ?_, by decide, by decide, by decide, by decide⟩
      show dumpInt n = _
      unfold dumpInt
      rw [if_pos hneg]
    · cases hd : dumpNat n.natAbs with
      | nil => exact absurd hd (dumpNat_ne_nil _)
      | cons c cs =>
        have hdc : isDigitChar c = true :=
          dumpNat_all_digits _ c (hd.symm ▸ List.mem_cons_self c cs)
        obtain ⟨hw, _, _, _, _, h5, h6, h7, _, _, _⟩ := isDigitChar_notSpecial hdc
        refine ⟨c, cs, ?_, hw, h5, h6, h7⟩
        show dumpInt n = _
        unfold dumpInt
        rw [if_neg hneg, hd]

theorem muV_pos (v : Json) : 1 ≤ muV v := by
  cases v <;> simp [muV]

theorem muA_pos (t : List Json) : 1 ≤ muA t := by
  cases t with
  | nil => simp [muA]
  | cons x xs => simp [muA]; have := muV_pos x; omega

theorem muT_pos (t : List Json) : 1 ≤ muT t := by
  cases t with
  | nil => simp [muT]
  | cons x xs => simp [muT]; omega

theorem muO_pos (t : List (Str × Json)) : 1 ≤ muO t := by
  cases t with
  | nil => simp [muO]
  | cons kv xs => obtain ⟨k, v⟩ := kv; simp [muO]; omega

theorem muOT_pos (t : List (Str × Json)) : 1 ≤ muOT t := by
  cases t with
  | nil => simp [muOT]
  | cons kv xs => obtain ⟨k, v⟩ := kv; simp [muOT]; omega

theorem parsePair_ws (fuel : Nat) {c : Char} (s : Str) (h : isWs c = true) :
    parsePair fuel (c :: s) = parsePair fuel s := by
  cases fuel with
  | zero => rfl
  | succ f =>
    simp only [parsePair]
    rw [show skipWs (c :: s) = skipWs s from by simp [skipWs, h]]

/-! ### JSON round-trip, part 3: the main induction -/

theorem parse_round_all : ∀ fuel : Nat,
    (∀ (v : Json) (rest : Str), muV v ≤ fuel → noDigitStart rest = true →
      parseValue fuel (dumpValue v ++ rest) = some (v, rest))
  ∧ (∀ (xs : List Json) (rest : Str), muA xs ≤ fuel →
      parseArrBody fuel (dumpElems xs ++ ']' :: rest) = some (.arr xs, rest))
  ∧ (∀ (xs : List Json) (rest : Str), muT xs ≤ fuel →
      parseArrTail fuel (dumpElemsTail xs ++ ']' :: rest) = some (xs, rest))
  ∧ (∀ (kvs : List (Str × Json)) (rest : Str), muO kvs ≤ fuel →
      parseObjBody fuel (dumpFields kvs ++ rbrace :: rest) = some (.obj kvs, rest))
  ∧ (∀ (k : Str) (v : Json) (rest : Str), 1 + muV v ≤ fuel → noDigitStart rest = true →
      parsePair fuel (dumpString k ++ ':' :: ' ' :: (dumpValue v ++ rest)) = some ((k, v), rest))
  ∧ (∀ (kvs : List (Str × Json)) (rest : Str), muOT kvs ≤ fuel →
      parseObjTail fuel (dumpFieldsTail kvs ++ rbrace :: rest) = some (kvs, rest)) := by
  intro fuel
  induction fuel with
  | zero =>
    refine ⟨?_, ?_, ?_, ?_, ?_, ?_⟩
    · intro v rest h _; exact absurd h (by have := muV_pos v; omega)
    · intro xs rest h; exact absurd h (by have := muA_pos xs; omega)
    · intro xs rest h; exact absurd h (by have := muT_pos xs; omega)
    · intro kvs rest h; exact absurd h (by have := muO_pos kvs; omega)
    · intro k v rest h _; exact absurd h (by have := muV_pos v; omega)
    · intro kvs rest h; exact absurd h (by have := muOT_pos kvs; omega)
  | succ f ih =>
    obtain ⟨ihV, ihA, ihT, ihO, ihP, ihOT⟩ := ih
    refine ⟨?_, ?_, ?_, ?_, ?_, ?_⟩
    -- parseValue
    · intro v rest hmu hrest
      cases v with
      | null =>
        simp only [parseValue]
        rw [show dumpValue .null ++ rest = 'n' :: 'u' :: 'l' :: 'l' :: rest from rfl]
        rw [skipWs_cons_of_not_ws (by decide)]
        simp [lbrace, isDigitChar, Char.ofNat]
      | bool b =>
        cases b with
        | true =>
          simp only [parseValue]
          rw [show dumpValue (.bool true) ++ rest = 't' :: 'r' :: 'u' :: 'e' :: rest from rfl]
          rw [skipWs_cons_of_not_ws (by decide)]
          simp [lbrace, isDigitChar, Char.ofNat]
        | false =>
          simp only [parseValue]
          rw [show dumpValue (.bool false) ++ rest
              = 'f' :: 'a' :: 'l' :: 's' :: 'e' :: rest from rfl]
          rw [skipWs_cons_of_not_ws (by decide)]
          simp [lbrace, isDigitChar, Char.ofNat]
      | str s =>
        simp only [parseValue]
        rw [show dumpValue (.str s) ++ rest
            = '"' :: (escapeString s ++ '"' :: rest) from by
          show dumpString s ++ rest = _
          simp [dumpString]]
        rw [skipWs_cons_of_not_ws (by decide)]
        simp [parseStringBody_round s rest]
      | arr xs =>
        have hmu2 : muA xs ≤ f := by
          have h1 : muV (.arr xs) = 1 + muA xs := by simp [muV]
          omega
        simp only [parseValue]
        rw [show dumpValue (.arr xs) ++ rest
            = '[' :: (dumpElems xs ++ ']' :: rest) from by
          show ('[' :: (dumpElems xs ++ [']'])) ++ rest = _
          simp]
        rw [skipWs_cons_of_not_ws (by decide)]
        simp only [eq_false (by decide : ¬ ('[' : Char) = '"'), eq_self_iff_true,
          if_true, if_false, ihA xs rest hmu2]
      | obj kvs =>
        have hmu2 : muO kvs ≤ f := by
          have h1 : muV (.obj kvs) = 1 + muO kvs := by simp [muV]
          omega
        simp only [parseValue]
        rw [show dumpValue (.obj kvs) ++ rest
            = lbrace :: (dumpFields kvs ++ rbrace :: rest) from by
          show (lbrace :: (dumpFields kvs ++ [rbrace])) ++ rest = _
          simp]
        rw [skipWs_cons_of_not_ws (by decide)]
        simp only [eq_false (by decide : ¬ lbrace = '"'),
          eq_false (by decide : ¬ lbrace = '['), eq_self_iff_true,
          if_true, if_false, ihO kvs rest hmu2]
      | num n =>
        by_cases hneg : n < 0
        · cases hd : dumpNat n.natAbs with
          | nil => exact absurd hd (dumpNat_ne_nil _)
          | cons c cs =>
            have hall : ∀ x ∈ c :: cs, isDigitChar x = true := by
              rw [← hd]; exact dumpNat_all_digits _
            simp only [parseValue]
            rw [show dumpValue (.num n) ++ rest = '-' :: ((c :: cs) ++ rest) from by
              show dumpInt n ++ rest = _
              unfold dumpInt
              rw [if_pos hneg, hd]
              rfl]
            rw [skipWs_cons_of_not_ws (by decide)]
            simp only [eq_false (by decide : ¬ ('-' : Char) = '"'),
              eq_false (by decide : ¬ ('-' : Char) = '['),
              eq_false (by decide : ¬ ('-' : Char) = lbrace), eq_self_iff_true,
              if_true, if_false]
            rw [takeDigits_spec (c :: cs) rest hall hrest]
            have hv : parseNatDigits (c :: cs) = n.natAbs := by
              rw [← hd]; exact parseNatDigits_dumpNat _
            simp [hv, abs_of_neg hneg]
        · cases hd : dumpNat n.natAbs with
          | nil => exact absurd hd (dumpNat_ne_nil _)
          | cons c cs =>
            have hall : ∀ x ∈ c :: cs, isDigitChar x = true := by
              rw [← hd]; exact dumpNat_all_digits _
            have hc : isDigitChar c = true := hall c (by simp)
            obtain ⟨hw, hq, hlb, hbr, hmi, _, _, _, _, _, _⟩ := isDigitChar_notSpecial hc
            simp only [parseValue]
            rw [show dumpValue (.num n) ++ rest = c :: (cs ++ rest) from by
              show dumpInt n ++ rest = _
              unfold dumpInt
              rw [if_neg hneg, hd]
              rfl]
            rw [skipWs_cons_of_not_ws hw]
            simp only [eq_false hq, eq_false hlb, eq_false hbr, eq_false hmi, hc,
              eq_self_iff_true, if_true, if_false]
            rw [show c :: (cs ++ rest) = (c :: cs) ++ rest from rfl,
              takeDigits_spec (c :: cs) rest hall hrest]
            have hv : parseNatDigits (c :: cs) = n.natAbs := by
              rw [← hd]; exact parseNatDigits_dumpNat _
            simp [hv, abs_of_nonneg (by omega : (0 : Int) ≤ n)]
    -- parseArrBody
    · intro xs rest hmu
      cases xs with
      | nil =>
        simp only [parseArrBody]
        rw [show dumpElems ([] : List Json) ++ ']' :: rest = ']' :: rest from rfl]
        rw [skipWs_cons_of_not_ws (by decide)]
        simp
      | cons x t =>
        have hmx : muV x ≤ f := by
          have h1 : muA (x :: t) = muV x + muT t := by simp [muA]
          have := muT_pos t
          omega
        have hmt : muT t ≤ f := by
          have h1 : muA (x :: t) = muV x + muT t := by simp [muA]
          have := muV_pos x
          omega
        obtain ⟨c, cs, hd, hw, hne1, _, _⟩ := dumpValue_head_cons x
        simp only [parseArrBody]
        rw [show dumpElems (x :: t) ++ ']' :: rest
            = c :: (cs ++ (dumpElemsTail t ++ ']' :: rest)) from by
          show (dumpValue x ++ dumpElemsTail t) ++ ']' :: rest = _
          rw [hd, List.cons_append]
          simp]
        rw [skipWs_cons_of_not_ws hw]
        simp only [eq_false hne1, if_false]
        rw [show c :: (cs ++ (dumpElemsTail t ++ ']' :: rest))
            = dumpValue x ++ (dumpElemsTail t ++ ']' :: rest) from by
          rw [hd, List.cons_append]]
        simp only [ihV x (dumpElemsTail t ++ ']' :: rest) hmx (noDigitStart_elemsTail t rest),
          ihT t rest hmt]
    -- parseArrTail
    · intro xs rest hmu
      cases xs with
      | nil =>
        simp only [parseArrTail]
        rw [show dumpElemsTail ([] : List Json) ++ ']' :: rest = ']' :: rest from rfl]
        rw [skipWs_cons_of_not_ws (by decide)]
        simp
      | cons x t =>
        have hmx : muV x ≤ f := by
          have h1 : muT (x :: t) = 1 + muV x + muT t := by simp [muT]
          have := muT_pos t
          omega
        have hmt : muT t ≤ f := by
          have h1 : muT (x :: t) = 1 + muV x + muT t := by simp [muT]
          have := muV_pos x
          omega
        simp only [parseArrTail]
        rw [show dumpElemsTail (x :: t) ++ ']' :: rest
            = ',' :: ' ' :: (dumpValue x ++ (dumpElemsTail t ++ ']' :: rest)) from by
          show (',' :: ' ' :: (dumpValue x ++ dumpElemsTail t)) ++ ']' :: rest = _
          simp]
        rw [skipWs_cons_of_not_ws (by decide)]
        simp only [eq_false (by decide : ¬ (',' : Char) = ']'), eq_self_iff_true,
          if_true, if_false]
        rw [parseValue_ws f _ (by decide)]
        simp only [ihV x (dumpElemsTail t ++ ']' :: rest) hmx (noDigitStart_elemsTail t rest),
          ihT t rest hmt]
    -- parseObjBody
    · intro kvs rest hmu
      cases kvs with
      | nil =>
        simp only [parseObjBody]
        rw [show dumpFields ([] : List (Str × Json)) ++ rbrace :: rest
            = rbrace :: rest from rfl]
        rw [skipWs_cons_of_not_ws (by decide)]
        simp
      | cons kv t =>
        obtain ⟨k, v⟩ := kv
        have hmv : 1 + muV v ≤ f := by
          have h1 : muO ((k, v) :: t) = 1 + muV v + muOT t := by simp [muO]
          have := muOT_pos t
          omega
        have hmt : muOT t ≤ f := by
          have h1 : muO ((k, v) :: t) = 1 + muV v + muOT t := by simp [muO]
          have := muV_pos v
          omega
        simp only [parseObjBody]
        rw [show dumpFields ((k, v) :: t) ++ rbrace :: rest
            = '"' :: (escapeString k ++ '"' :: (':' :: ' ' :: (dumpValue v ++
                (dumpFieldsTail t ++ rbrace :: rest)))) from by
          show (dumpString k ++ ':' :: ' ' :: (dumpValue v ++ dumpFieldsTail t))
              ++ rbrace :: rest = _
          simp [dumpString]]
        rw [skipWs_cons_of_not_ws (by decide)]
        simp only [eq_false (by decide : ¬ ('"' : Char) = rbrace), if_false]
        rw [show '"' :: (escapeString k ++ '"' :: (':' :: ' ' :: (dumpValue v ++
              (dumpFieldsTail t ++ rbrace :: rest))))
            = dumpString k ++ ':' :: ' ' :: (dumpValue v ++
              (dumpFieldsTail t ++ rbrace :: rest)) from by
          simp [dumpString]]
        simp only [ihP k v (dumpFieldsTail t ++ rbrace :: rest) hmv
          (noDigitStart_fieldsTail t rest), ihOT t rest hmt]
    -- parsePair
    · intro k v rest hmu hrest
      have hmv : muV v ≤ f := by omega
      simp only [parsePair]
      rw [show dumpString k ++ ':' :: ' ' :: (dumpValue v ++ rest)
          = '"' :: (escapeString k ++ '"' :: (':' :: ' ' :: (dumpValue v ++ rest))) from by
        simp [dumpString]]
      rw [skipWs_cons_of_not_ws (by decide)]
      simp only [eq_self_iff_true, if_true,
        parseStringBody_round k (':' :: ' ' :: (dumpValue v ++ rest))]
      rw [show skipWs (':' :: ' ' :: (dumpValue v ++ rest))
          = ':' :: ' ' :: (dumpValue v ++ rest) from skipWs_cons_of_not_ws (by decide)]
      simp only [@parseValue_ws f ' ' (dumpValue v ++ rest) (by decide),
        ihV v rest hmv hrest]
    -- parseObjTail
    · intro kvs rest hmu
      cases kvs with
      | nil =>
        simp only [parseObjTail]
        rw [show dumpFieldsTail ([] : List (Str × Json)) ++ rbrace :: rest
            = rbrace :: rest from rfl]
        rw [skipWs_cons_of_not_ws (by decide)]
        simp
      | cons kv t =>
        obtain ⟨k, v⟩ := kv
        have hmv : 1 + muV v ≤ f := by
          have h1 : muOT ((k, v) :: t) = 2 + muV v + muOT t := by simp [muOT]
          have := muOT_pos t
          omega
        have hmt : muOT t ≤ f := by
          have h1 : muOT ((k, v) :: t) = 2 + muV v + muOT t := by simp [muOT]
          have := muV_pos v
          omega
        simp only [parseObjTail]
        rw [show dumpFieldsTail ((k, v) :: t) ++ rbrace :: rest
            = ',' :: ' ' :: (dumpString k ++ ':' :: ' ' :: (dumpValue v ++
              (dumpFieldsTail t ++ rbrace :: rest))) from by
          show (',' :: ' ' :: (dumpString k ++ ':' :: ' ' ::
              (dumpValue v ++ dumpFieldsTail t))) ++ rbrace :: rest = _
          simp]
        rw [skipWs_cons_of_not_ws (by decide)]
        simp only [eq_false (by decide : ¬ (',' : Char) = rbrace), eq_self_iff_true,
          if_true, if_false]
        rw [parsePair_ws f _ (by decide)]
        simp only [ihP k v (dumpFieldsTail t ++ rbrace :: rest) hmv
          (noDigitStart_fieldsTail t rest), ihOT t rest hmt]

/-! ### JSON round-trip, part 4: fuel bounds and the round-trip theorem -/

theorem dumpInt_ne_nil (n : Int) : dumpInt n ≠ [] := by
  unfold dumpInt
  by_cases h : n < 0
  · simp [h]
  · simp [h, dumpNat_ne_nil]

mutual

theorem muV_le_len : (v : Json) → muV v ≤ (dumpValue v).length
  | .null => by simp [muV, dumpValue]
  | .bool b => by cases b <;> simp [muV, dumpValue]
  | .num n => by
    have h := dumpInt_ne_nil n
    have h1 : 1 ≤ (dumpInt n).length := by
      cases hc : dumpInt n with
      | nil => exact absurd hc h
      | cons c cs => simp
    simpa [muV, dumpValue] using h1
  | .str s => by simp [muV, dumpValue, dumpString]
  | .arr xs => by
    have h := muA_le_len xs
    simp only [muV]
    show 1 + muA xs ≤ ('[' :: (dumpElems xs ++ [']'])).length
    simp
    omega
  | .obj kvs => by
    have h := muO_le_len kvs
    simp only [muV]
    show 1 + muO kvs ≤ (lbrace :: (dumpFields kvs ++ [rbrace])).length
    simp
    omega

theorem muA_le_len : (xs : List Json) → muA xs ≤ (dumpElems xs).length + 1
  | [] => by simp [muA, dumpElems]
  | x :: t => by
    have h1 := muV_le_len x
    have h2 := muT_le_len t
    show muV x + muT t ≤ (dumpValue x ++ dumpElemsTail t).length + 1
    simp
    omega

theorem muT_le_len : (xs : List Json) → muT xs ≤ (dumpElemsTail xs).length + 1
  | [] => by simp [muT, dumpElemsTail]
  | x :: t => by
    have h1 := muV_le_len x
    have h2 := muT_le_len t
    show 1 + muV x + muT t ≤ (',' :: ' ' :: (dumpValue x ++ dumpElemsTail t)).length + 1
    simp
    omega

theorem muO_le_len : (kvs : List (Str × Json)) → muO kvs ≤ (dumpFields kvs).length + 1
  | [] => by simp [muO, dumpFields]
  | (k, v) :: t => by
    have h1 := muV_le_len v
    have h2 := muOT_le_len t
    have h3 : (dumpString k).length = (escapeString k).length + 2 := by
      simp [dumpString]
    show 1 + muV v + muOT t
        ≤ (dumpString k ++ ':' :: ' ' :: (dumpValue v ++ dumpFieldsTail t)).length + 1
    simp [h3]
    omega

theorem muOT_le_len : (kvs : List (Str × Json)) → muOT kvs ≤ (dumpFieldsTail kvs).length + 1
  | [] => by simp [muOT, dumpFieldsTail]
  | (k, v) :: t => by
    have h1 := muV_le_len v
    have h2 := muOT_le_len t
    have h3 : (dumpString k).length = (escapeString k).length + 2 := by
      simp [dumpString]
    show 2 + muV v + muOT t
        ≤ (',' :: ' ' :: (dumpString k ++ ':' :: ' ' ::
            (dumpValue v ++ dumpFieldsTail t))).length + 1
    simp [h3]
    omega

end

/-- The JSON round-trip: reading back a serialized value recovers it
exactly. -/
theorem loads_dumpValue (v : Json) : loads (dumpValue v) = some v := by
  unfold loads
  have h := (parse_round_all ((dumpValue v).length + 1)).1 v []
    (by have := muV_le_len v; omega) (by rfl)
  rw [show dumpValue v ++ [] = dumpValue v from by simp] at h
  rw [h]
  simp [skipWs]

/-! ### C6 — preferences get/set -/

theorem update_prefs_stored (st : PrefsState) (k : Str) (pd : PreferenceUpdate) (now : Nat) :
    ∃ row, ((update_user_preferences st k pd now).2).find? (fun p => p.username == k)
        = some row ∧
      row.preferences = dumpValue (.obj pd.preferences) ∧ row.updated_at = now := by
  cases hfind : st.find? (fun p => p.username == k) with
  | none =>
    refine ⟨⟨k, dumpValue (.obj pd.preferences), now⟩, ?_, rfl, rfl⟩
    simp only [update_user_preferences, hfind]
    rw [find?_append_singleton _ _ _ hfind]
    simp
  | some p0 =>
    have hp := List.find?_some hfind
    refine ⟨{ p0 with preferences := dumpValue (.obj pd.preferences), updated_at := now },
      ?_, rfl, rfl⟩
    simp only [update_user_preferences, hfind]
    exact find?_updateFirst _ _ _ _ hfind hp

/-- C6: a preferences read for a key that has never been written returns
an empty blob with success (reads are total — no error outcome exists),
and a set followed by a get on the same key returns exactly the blob
that was set, whole-blob, via the JSON round-trip. -/
theorem preferences_get_set :
    (∀ (st : PrefsState) (k : Str),
      st.find? (fun p => p.username == k) = none →
      get_user_preferences st k = ⟨k, .obj [], none⟩)
  ∧ (∀ (st : PrefsState) (k : Str) (pd : PreferenceUpdate) (now : Nat),
      get_user_preferences (update_user_preferences st k pd now).2 k
        = ⟨k, .obj pd.preferences, some now⟩) := by
  constructor
  · intro st k h
    simp [get_user_preferences, h]
  · intro st k pd now
    obtain ⟨row, hfind, hprefs, hupd⟩ := update_prefs_stored st k pd now
    simp [get_user_preferences, hfind, hprefs, loads_dumpValue, hupd]

/-- C6 witness: reading a never-written key from the empty store, and a
set-then-get round-trip of a one-entry blob. -/
theorem preferences_get_set_witness :
    (([] : PrefsState).find? (fun p => p.username == ("alice".toList : Str)) = none) ∧
    get_user_preferences ([] : PrefsState) "alice".toList
      = ⟨"alice".toList, .obj [], none⟩ ∧
    get_user_preferences
        (update_user_preferences ([] : PrefsState) "alice".toList
          ⟨"dev1".toList, [("theme".toList, .str "dark".toList)]⟩ 7).2 "alice".toList
      = ⟨"alice".toList, .obj [("theme".toList, .str "dark".toList)], some 7⟩ := by
  refine ⟨rfl, ?_, ?_⟩
  · exact preferences_get_set.1 [] "alice".toList rfl
  · exact preferences_get_set.2 [] "alice".toList
      ⟨"dev1".toList, [("theme".toList, .str "dark".toList)]⟩ 7

/-! ### C4 — login device-list idempotence -/

theorem devMem_append_str (dv : Str) (l : List Json) :
    devMem dv (l ++ [.str dv]) = true := by
  induction l with
  | nil => simp [devMem]
  | cons x t ih => cases x <;> simp [devMem, ih]

theorem add_device_idem (l : List Json) (dv : Str) :
    add_device_to_user (add_device_to_user l dv) dv = add_device_to_user l dv := by
  unfold add_device_to_user
  by_cases he : dv.isEmpty
  · simp [he]
  · by_cases hm : devMem dv l
    · simp [he, hm]
    · simp [he, hm, devMem_append_str]

theorem parse_devices_dump (l : List Json) : parse_devices (dumpValue (.arr l)) = some l := by
  unfold parse_devices
  rw [if_neg (by
    rw [show dumpValue (.arr l) = '[' :: (dumpElems l ++ [']']) from rfl]
    simp)]
  rw [loads_dumpValue]

theorem login_user_shape (st : UsersState) (d : DeviceLogin) (now : Nat) (u : UserRow)
    (l0 : List Json)
    (hfind : st.users.find? (fun v => v.username == d.username) = some u)
    (hdev : u.devices = dumpValue (.arr l0)) :
    ∃ st2 u2,
      login_user st d now = (.ok ⟨u.user_id, u.username, u.category, u.subteam⟩, st2) ∧
      st2.users.find? (fun v => v.username == d.username) = some u2 ∧
      u2.devices = dumpValue (.arr (add_device_to_user l0 d.device)) ∧
      u2.last_login = some now := by
  have hp := List.find?_some hfind
  refine ⟨⟨updateFirst (fun v => v.username == d.username)
      (fun _ => ⟨u.user_id, u.username, u.category, u.subteam,
        dumpValue (.arr (add_device_to_user l0 d.device)), some now, u.created_at⟩)
      st.users, st.nextId⟩,
    ⟨u.user_id, u.username, u.category, u.subteam,
      dumpValue (.arr (add_device_to_user l0 d.device)), some now, u.created_at⟩,
    ?_, ?_, rfl, rfl⟩
  · simp only [login_user, hfind, hdev, parse_devices_dump]
  · exact find?_updateFirst _ _ _ _ hfind hp

/-- C4: for an existing user whose stored device list is a serialized
JSON list, two logins with the same device leave the device column after
the second call identical to what it was after the first (no duplicate,
first-seen order retained — a device is appended at the end only if it
is non-empty and not already present), while `last_login` is advanced to
the current time by both calls. -/
theorem login_device_idempotent :
    ∀ (st : UsersState) (d : DeviceLogin) (now1 now2 : Nat) (u : UserRow) (l0 : List Json),
      st.users.find? (fun v => v.username == d.username) = some u →
      u.devices = dumpValue (.arr l0) →
      ∃ r1 st1 r2 st2 u1 u2,
        login_user st d now1 = (.ok r1, st1) ∧
        st1.users.find? (fun v => v.username == d.username) = some u1 ∧
        u1.devices = dumpValue (.arr (add_device_to_user l0 d.device)) ∧
        u1.last_login = some now1 ∧
        login_user st1 d now2 = (.ok r2, st2) ∧
        st2.users.find? (fun v => v.username == d.username) = some u2 ∧
        u2.devices = u1.devices ∧
        u2.last_login = some now2 ∧
        (d.device ≠ [] ∧ devMem d.device l0 = false →
          add_device_to_user l0 d.device = l0 ++ [.str d.device]) ∧
        (d.device = [] ∨ devMem d.device l0 = true →
          add_device_to_user l0 d.device = l0) := by
  intro st d now1 now2 u l0 hfind hdev
  obtain ⟨st1, u1, hlogin1, hfind1, hdev1, hlast1⟩ :=
    login_user_shape st d now1 u l0 hfind hdev
  obtain ⟨st2, u2, hlogin2, hfind2, hdev2, hlast2⟩ :=
    login_user_shape st1 d now2 u1 (add_device_to_user l0 d.device) hfind1 hdev1
  refine ⟨_, st1, _, st2, u1, u2, hlogin1, hfind1, hdev1, hlast1, hlogin2, hfind2,
    ?_, hlast2, ?_, ?_⟩
  · rw [hdev2, add_device_idem, ← hdev1]
  · intro h
    obtain ⟨hne, hmem⟩ := h
    unfold add_device_to_user
    rw [if_pos (by simp [hmem, List.isEmpty_iff, hne])]
  · intro h
    unfold add_device_to_user
    rcases h with hnil | hmem
    · rw [if_neg (by simp [hnil])]
    · rw [if_neg (by simp [hmem])]

/-- C4 witness at a concrete store: two logins of device `"dev1"` for
user `"alice"` starting from an empty device list. -/
theorem login_device_idempotent_witness :
    ((⟨[⟨1, "alice".toList, none, "s".toList, dumpValue (.arr []), none, 0⟩], 2⟩ :
        UsersState).users.find?
      (fun v => v.username == ("alice".toList : Str))
        = some ⟨1, "alice".toList, none, "s".toList, dumpValue (.arr []), none, 0⟩) ∧
    (∃ r1 st1 r2 st2 u1 u2,
      login_user ⟨[⟨1, "alice".toList, none, "s".toList, dumpValue (.arr []), none, 0⟩], 2⟩
        ⟨"alice".toList, "dev1".toList⟩ 5 = (.ok r1, st1) ∧
      st1.users.find? (fun v => v.username == ("alice".toList : Str)) = some u1 ∧
      u1.devices = dumpValue (.arr (add_device_to_user [] "dev1".toList)) ∧
      u1.last_login = some 5 ∧
      login_user st1 ⟨"alice".toList, "dev1".toList⟩ 6 = (.ok r2, st2) ∧
      st2.users.find? (fun v => v.username == ("alice".toList : Str)) = some u2 ∧
      u2.devices = u1.devices ∧
      u2.last_login = some 6 ∧
      (("dev1".toList : Str) ≠ [] ∧ devMem "dev1".toList ([] : List Json) = false →
        add_device_to_user [] "dev1".toList = [] ++ [.str "dev1".toList]) ∧
      (("dev1".toList : Str) = [] ∨ devMem "dev1".toList ([] : List Json) = true →
        add_device_to_user [] "dev1".toList = [])) := by
  refine ⟨rfl, ?_⟩
  exact login_device_idempotent
    ⟨[⟨1, "alice".toList, none, "s".toList, dumpValue (.arr []), none, 0⟩], 2⟩
    ⟨"alice".toList, "dev1".toList⟩ 5 6
    ⟨1, "alice".toList, none, "s".toList, dumpValue (.arr []), none, 0⟩ [] rfl rfl

end PRStocks
